import Mathlib

/-!
Verification development for the kura-xmitter bidirectional file-tree
synchronizer.  The development shallowly embeds the final variant of the
synchronizer (`src/unnamed/part_002`, class `Synchronizer` with `Handler`
and `Notifier`) and, where claims concern it, the middle variant found in
`src/src/Synchronizer.ts` (lines 456-1043, the variant with `SyncResult`
and `setResult`).

Paths are modelled as segment lists (the TypeScript code joins segments
with `DIR_SEPARATOR`); the root `"/"` is `[]`.  Timestamps are epoch
milliseconds modelled as `Nat`; the sentinel `Synchronizer.NOT_EXISTS`
is `0`.  Every backend interaction is recorded in an operation trace so
that frame and ordering claims can be stated about the calls the source
code issues.
-/

namespace KuraXmitter

/-- A path, as the list of its segments (root `"/"` is `[]`). -/
abbrev Path := List String

/-- `FileNameIndexEntry` of kura: one record of a directory's name index.
`size = none` marks a directory, `some` a file.  `modified = 0` is the
`NOT_EXISTS` sentinel; `deleted` present marks a tombstone.  String fields
that the source leaves `undefined` (the record object `{ modified }` saved
by `makeDirectory`) are modelled as `[]` / `""`. -/
structure FNRecord where
  fullPath : Path
  name : String
  size : Option Nat
  modified : Nat
  deleted : Option Nat
deriving DecidableEq

/-- `FileNameIndex`: name-keyed association list, insertion ordered. -/
abbrev NameIndex := List (String × FNRecord)

/-- One replica (one accessor's view): its per-directory name indexes, the
stored file contents (bytes abstracted to a `Nat` token), the set of
directories that exist on the backend, and a fault-injection set of paths
whose backend reads fail with a generic (non-NotFound) error. -/
structure Replica where
  indexes : List (Path × NameIndex)
  contents : List (Path × Nat)
  dirs : List Path
  faulty : List Path
deriving DecidableEq

/-- Which accessor: the local or the remote one. -/
inductive Side where
  | loc
  | rem
deriving DecidableEq

/-- Errors: kura's `NotFoundError` versus any other failure. -/
inductive Err where
  | notFound
  | generic
deriving DecidableEq

/-- `SyncResult` of the final variant (`part_002`). -/
structure SyncResult where
  forward : Bool
  backward : Bool
  errors : List Err
deriving DecidableEq

/-- `SYNC_RESULT_FALSES`. -/
def SYNC_RESULT_FALSES : SyncResult := { forward := false, backward := false, errors := [] }

/-- Backend/index operations issued by the synchronizer, recorded in
chronological order.  `deleteBackend` is a physical delete
(`accessor.delete` / `deleteRecursively` / `doDelete`), `putObject` is
`doPutObject` / `doMakeDirectory`, `saveRecord` / `deleteRecord` /
`doDeleteIndex` / `persistIndex` are index-state operations, `visited`
marks a `synchronizeOne` invocation for a name, `childrenCall` /
`childrenCallN` mark `synchronizeChildren` invocations (Bool recursion
flag in the final variant, `Option Nat` count in the middle variant with
`none` standing for the unbounded `Number.MAX_VALUE`). -/
inductive Op where
  | visited (s : Side) (name : String)
  | getIndex (s : Side) (dirPath : Path)
  | transfer (src : Side) (dst : Side) (path : Path)
  | saveRecord (s : Side) (path : Path) (rec : FNRecord)
  | deleteBackend (s : Side) (path : Path) (isFile : Bool)
  | deleteRecord (s : Side) (path : Path)
  | doDeleteIndex (s : Side) (path : Path)
  | putObject (s : Side) (path : Path)
  | childrenCall (fromSide : Side) (dirPath : Path) (recursively : Bool)
  | childrenCallN (fromSide : Side) (dirPath : Path) (count : Option Nat)
  | persistIndex (s : Side) (dirPath : Path)
  | warnOp (path : Path)
  | completedOp (forward : Bool) (backward : Bool) (errors : List Err) (hasErrorArg : Bool)
deriving DecidableEq

/-- Whole synchronization state: the two replicas and the trace. -/
structure SyncState where
  loc : Replica
  rem : Replica
  trace : List Op
deriving DecidableEq

/-- Result of a computation that may raise: value or error, with the state
at that point (JavaScript mutations survive a `throw`). -/
inductive Res (α : Type) where
  | ok (a : α) (s : SyncState)
  | err (e : Err) (s : SyncState)
deriving DecidableEq

/-- Configuration: the exclusion predicates (the compiled
`excludeNameRegExp` / `excludePathRegExp`) and the current clock used for
tombstones the backend creates. -/
structure Env where
  excludeName : String → Bool
  excludePath : Path → Bool
  now : Nat

/-- Does a name start with a dot? -/
def dotName (n : String) : Bool :=
  match n.data with
  | [] => false
  | c :: _ => c = '.'

/-- The default `excludeNamePattern` regexp `"^\\.|^$"`. -/
def defaultExcludeName (n : String) : Bool :=
  dotName n || n = ""

/-- The default `excludePathPattern` regexp `"\\/\\."` (a segment starting
with a dot somewhere below the root). -/
def defaultExcludePath (p : Path) : Bool :=
  p.any (fun seg => dotName seg)

/-- The default environment. -/
def defaultEnv : Env :=
  { excludeName := defaultExcludeName, excludePath := defaultExcludePath, now := 1000 }

/-! ## Association-list helpers -/

/-- Set a key in an association list (replace in place, else append). -/
def alSet {α : Type} [DecidableEq α] {β : Type} (l : List (α × β)) (k : α) (v : β) :
    List (α × β) :=
  match l with
  | [] => [(k, v)]
  | (k', v') :: rest => if k' = k then (k, v) :: rest else (k', v') :: alSet rest k v

/-- Remove a key from an association list. -/
def alErase {α : Type} [DecidableEq α] {β : Type} (l : List (α × β)) (k : α) :
    List (α × β) :=
  match l with
  | [] => []
  | (k', v') :: rest => if k' = k then rest else (k', v') :: alErase rest k

/-- Look a key up in an association list. -/
def alGet {α : Type} [DecidableEq α] {β : Type} (l : List (α × β)) (k : α) : Option β :=
  match l with
  | [] => none
  | (k', v') :: rest => if k' = k then some v' else alGet rest k

/-! ## Replica and state helpers -/

/-- The parent directory of a path (root's parent is the root). -/
def parentPath (p : Path) : Path := p.dropLast

/-- The last segment of a path (the entry name; `""` for the root). -/
def baseName (p : Path) : String := (p.getLast?).getD ""

/-- The path of a child entry of a directory. -/
def childPath (dir : Path) (name : String) : Path := dir ++ [name]

/-- Read one side of the state. -/
def sideRep (s : SyncState) : Side → Replica
  | Side.loc => s.loc
  | Side.rem => s.rem

/-- Replace one side of the state. -/
def setSideRep (s : SyncState) (sd : Side) (r : Replica) : SyncState :=
  match sd with
  | Side.loc => { s with loc := r }
  | Side.rem => { s with rem := r }

/-- The name index a replica holds for a directory (missing means empty;
per the spec a NotFound on `listIndex` is treated as an empty index). -/
def idxOf (s : SyncState) (sd : Side) (dir : Path) : NameIndex :=
  (alGet (sideRep s sd).indexes dir).getD []

/-- Record an operation in the trace. -/
def emit (op : Op) (s : SyncState) : SyncState :=
  { s with trace := s.trace ++ [op] }

/-- Look up the record stored for `name` in `dir`'s index on one side. -/
def lookupRecord (s : SyncState) (sd : Side) (dir : Path) (name : String) :
    Option FNRecord :=
  alGet (idxOf s sd dir) name

/-- Modelled from the spec: kura's `accessor.saveRecord(fullPath, record)`
stores the given record in the index of the path's parent directory under
the path's last segment (the Index Persistence Adapter of §6). -/
def saveRecordState (s : SyncState) (sd : Side) (p : Path) (rec : FNRecord) : SyncState :=
  let r := sideRep s sd
  let dir := parentPath p
  let idx := (alGet r.indexes dir).getD []
  setSideRep s sd { r with indexes := alSet r.indexes dir (alSet idx (baseName p) rec) }

/-- Modelled from the spec: kura's `accessor.deleteRecord(fullPath)` drops
the index record of the path's parent directory under its last segment. -/
def deleteRecordState (s : SyncState) (sd : Side) (p : Path) : SyncState :=
  let r := sideRep s sd
  let dir := parentPath p
  let idx := (alGet r.indexes dir).getD []
  setSideRep s sd { r with indexes := alSet r.indexes dir (alErase idx (baseName p)) }

/-- Modelled from the spec: an index-maintaining accessor records a
deletion it performs as a tombstone (`deleted := now`) on the entry's
record, if one is present (§3: tombstones mark known deletions). -/
def tombstoneState (s : SyncState) (sd : Side) (p : Path) (now : Nat) : SyncState :=
  let r := sideRep s sd
  let dir := parentPath p
  match alGet r.indexes dir with
  | none => s
  | some idx =>
    match alGet idx (baseName p) with
    | none => s
    | some rec =>
      setSideRep s sd
        { r with indexes := alSet r.indexes dir (alSet idx (baseName p) { rec with deleted := some now }) }

/-! ## Backend operation models (the kura collaborator, spec §6) -/

/-- Modelled from the spec: `listIndex(dirPath) -> NameIndex`
(`accessor.getFileNameIndex`).  A missing index is an empty one (spec:
"throws NotFound → treated as empty index"); a path in the replica's
fault set makes the fetch fail with a generic error (backend
unreachable). -/
def getFileNameIndex (sd : Side) (dir : Path) (s : SyncState) : Res NameIndex :=
  let s := emit (Op.getIndex sd dir) s
  if dir ∈ (sideRep s sd).faulty then Res.err Err.generic s
  else Res.ok (idxOf s sd dir) s

/-- Modelled from the spec: the Content Transfer collaborator's
`transfer(fromAccessor, fromObj, toAccessor, toObj)`.  Reading a missing
source object raises `NotFoundError`; a fault-injected source path raises
a generic error. -/
def transferContent (src : Side) (dst : Side) (p : Path) (s : SyncState) : Res Unit :=
  let s := emit (Op.transfer src dst p) s
  if p ∈ (sideRep s src).faulty then Res.err Err.generic s
  else
    match alGet (sideRep s src).contents p with
    | none => Res.err Err.notFound s
    | some v =>
      let r := sideRep s dst
      Res.ok () (setSideRep s dst { r with contents := alSet r.contents p v })

/-- Modelled from the spec: `accessor.delete(fullPath, isFile)` of an
index-maintaining accessor — remove the file's content, record a
tombstone on its index record; a missing file raises `NotFoundError`
("already gone"). -/
def backendDeleteFile (sd : Side) (p : Path) (now : Nat) (s : SyncState) : Res Unit :=
  let s := emit (Op.deleteBackend sd p true) s
  match alGet (sideRep s sd).contents p with
  | none => Res.err Err.notFound s
  | some _ =>
    let r := sideRep s sd
    let s := setSideRep s sd { r with contents := alErase r.contents p }
    Res.ok () (tombstoneState s sd p now)

/-- Modelled from the spec: `accessor.deleteRecursively(fullPath)` of an
index-maintaining accessor — remove the directory with everything below
it (contents, sub-directories, sub-indexes) and record a tombstone on the
directory's own index record; a missing directory raises
`NotFoundError`. -/
def backendDeleteDir (sd : Side) (p : Path) (now : Nat) (s : SyncState) : Res Unit :=
  let s := emit (Op.deleteBackend sd p false) s
  if p ∈ (sideRep s sd).dirs then
    let r := sideRep s sd
    let r :=
      { r with
        dirs := r.dirs.filter (fun q => ¬(p.isPrefixOf q)),
        contents := r.contents.filter (fun q => ¬(p.isPrefixOf q.1)),
        indexes := r.indexes.filter (fun q => ¬(p.isPrefixOf q.1)) }
    Res.ok () (tombstoneState (setSideRep s sd r) sd p now)
  else Res.err Err.notFound s

/-- Modelled from the spec: `accessor.doPutObject(obj)` for a directory
object — the raw "make directory" backend call (no index side effect). -/
def backendPutDir (sd : Side) (p : Path) (s : SyncState) : SyncState :=
  let s := emit (Op.putObject sd p) s
  let r := sideRep s sd
  if p ∈ r.dirs then s else setSideRep s sd { r with dirs := r.dirs ++ [p] }

/-- Modelled from the spec: `accessor.doDelete(createIndexPath(fullPath),
true)` — raw removal of the index file kept for `fullPath`, dropping that
directory's persisted name index. -/
def doDeleteIndexState (sd : Side) (p : Path) (s : SyncState) : SyncState :=
  let s := emit (Op.doDeleteIndex sd p) s
  let r := sideRep s sd
  setSideRep s sd { r with indexes := alErase r.indexes p }

/-- `accessor.saveRecord` as called by the synchronizer (records the
operation, then applies the index write). -/
def saveRecordOp (sd : Side) (p : Path) (rec : FNRecord) (s : SyncState) : SyncState :=
  saveRecordState (emit (Op.saveRecord sd p rec) s) sd p rec

/-- `accessor.deleteRecord` as called by the synchronizer. -/
def deleteRecordOp (sd : Side) (p : Path) (s : SyncState) : SyncState :=
  deleteRecordState (emit (Op.deleteRecord sd p) s) sd p

/-! ## The final variant (`src/unnamed/part_002`)

The `Handler` argument is the `DEFAULT_HANDLER` (its `beforeCopy` /
`beforeDelete` return `false`, its `afterCopy` / `afterDelete` /
`completed` do nothing, its `getNames` sorts records by `modified`
descending).  The `Notifier` only reports progress counts and is not
modelled.  `debug` output is verbose-only logging with no effect and is
not modelled; `warn` calls are recorded as `Op.warnOp`. -/

/-- `Synchronizer.copyFile`: transfer the object's content, then save the
source record on the destination side (`toAccessor.saveRecord`).
`handler.beforeCopy` is the default constant `false`, and
`clearContentsCache` has no observable effect in the model. -/
def copyFile (fromSide : Side) (toSide : Side) (fromRecord : FNRecord) (s : SyncState) :
    Res Unit :=
  match transferContent fromSide toSide fromRecord.fullPath s with
  | Res.ok _ s => Res.ok () (saveRecordOp toSide fromRecord.fullPath fromRecord s)
  | Res.err e s => Res.err e s

/-- `Synchronizer.deleteEntry`: physical delete (file delete or recursive
directory delete), swallowing `NotFoundError` ("already gone").
`handler.beforeDelete` is the default constant `false`. -/
def deleteEntry (env : Env) (sd : Side) (rec : FNRecord) (s : SyncState) : SyncState :=
  if rec.size ≠ none then
    match backendDeleteFile sd rec.fullPath env.now s with
    | Res.ok _ s => s
    | Res.err _ s => s
  else
    match backendDeleteDir sd rec.fullPath env.now s with
    | Res.ok _ s => s
    | Res.err _ s => s

/-- The record object `{ modified: record.modified }` that
`Synchronizer.makeDirectory` saves (its other fields are absent). -/
def dirSavedRecord (m : Nat) : FNRecord :=
  { fullPath := [], name := "", size := none, modified := m, deleted := none }

/-- `Synchronizer.makeDirectory`: `doPutObject` then
`saveRecord(fullPath, { modified: record.modified })`. -/
def makeDirectory (sd : Side) (rec : FNRecord) (s : SyncState) : SyncState :=
  saveRecordOp sd rec.fullPath (dirSavedRecord rec.modified) (backendPutDir sd rec.fullPath s)

/-- `Synchronizer.mergeResult` (merge `result` into the accumulator). -/
def mergeResult (result : SyncResult) (merged : SyncResult) : SyncResult :=
  { forward := merged.forward || result.forward,
    backward := merged.backward || result.backward,
    errors := merged.errors ++ result.errors }

/-- Record synthesis of `synchronizeOne`: if exactly one record is
missing, deep-copy the other, drop `deleted` and force
`modified := NOT_EXISTS`; if both are missing there is nothing to do. -/
def resolveRecords (fromRec : Option FNRecord) (toRec : Option FNRecord) :
    Option (FNRecord × FNRecord) :=
  match fromRec, toRec with
  | none, none => none
  | some fr, none => some (fr, { fr with deleted := none, modified := 0 })
  | none, some tr => some ({ tr with deleted := none, modified := 0 }, tr)
  | some fr, some tr => some (fr, tr)

/-- The per-entry catch of `synchronizeOne` (lines 775-778): push the
error on the result and warn. -/
def absorbErr (e : Err) (r : SyncResult) (p : Path) (s : SyncState) :
    SyncResult × SyncState :=
  ({ r with errors := r.errors ++ [e] }, emit (Op.warnOp p) s)

/-- The file half of `synchronizeOne`'s decision table (the both-deleted
case has already returned). -/
def syncFileBranch (env : Env) (fromSide : Side) (toSide : Side) (p : Path)
    (fromRecord : FNRecord) (toRecord : FNRecord) (s : SyncState) :
    SyncResult × SyncState :=
  match fromRecord.deleted, toRecord.deleted with
  | some fd, none =>
    if fd < toRecord.modified then
      match copyFile toSide fromSide toRecord s with
      | Res.ok _ s => ({ SYNC_RESULT_FALSES with backward := true }, s)
      | Res.err Err.notFound s => (SYNC_RESULT_FALSES, deleteRecordOp toSide p s)
      | Res.err e s => absorbErr e SYNC_RESULT_FALSES p s
    else
      if toRecord.modified ≠ 0 then
        ({ SYNC_RESULT_FALSES with forward := true }, deleteEntry env toSide toRecord s)
      else
        if fromSide = Side.loc then (SYNC_RESULT_FALSES, doDeleteIndexState fromSide p s)
        else (SYNC_RESULT_FALSES, s)
  | none, some td =>
    if td < fromRecord.modified then
      match copyFile fromSide toSide fromRecord s with
      | Res.ok _ s => ({ SYNC_RESULT_FALSES with forward := true }, s)
      | Res.err Err.notFound s => (SYNC_RESULT_FALSES, deleteRecordOp fromSide p s)
      | Res.err e s => absorbErr e SYNC_RESULT_FALSES p s
    else
      if fromRecord.modified ≠ 0 then
        ({ SYNC_RESULT_FALSES with backward := true }, deleteEntry env fromSide fromRecord s)
      else
        if toSide = Side.loc then (SYNC_RESULT_FALSES, doDeleteIndexState toSide p s)
        else (SYNC_RESULT_FALSES, s)
  | none, none =>
    if toRecord.modified < fromRecord.modified then
      match copyFile fromSide toSide fromRecord s with
      | Res.ok _ s => ({ SYNC_RESULT_FALSES with forward := true }, s)
      | Res.err Err.notFound s =>
        match copyFile toSide fromSide toRecord s with
        | Res.ok _ s => ({ SYNC_RESULT_FALSES with backward := true }, s)
        | Res.err Err.notFound s =>
          let s := deleteEntry env fromSide fromRecord s
          let s := deleteEntry env toSide toRecord s
          ({ SYNC_RESULT_FALSES with forward := true, backward := true }, s)
        | Res.err e s => absorbErr e SYNC_RESULT_FALSES p s
      | Res.err e s => absorbErr e SYNC_RESULT_FALSES p s
    else if fromRecord.modified < toRecord.modified then
      match copyFile toSide fromSide toRecord s with
      | Res.ok _ s => ({ SYNC_RESULT_FALSES with backward := true }, s)
      | Res.err Err.notFound s =>
        match copyFile fromSide toSide toRecord s with
        | Res.ok _ s => ({ SYNC_RESULT_FALSES with forward := true }, s)
        | Res.err Err.notFound s =>
          let s := deleteEntry env fromSide fromRecord s
          let s := deleteEntry env toSide toRecord s
          ({ SYNC_RESULT_FALSES with forward := true, backward := true }, s)
        | Res.err e s => absorbErr e SYNC_RESULT_FALSES p s
      | Res.err e s => absorbErr e SYNC_RESULT_FALSES p s
    else (SYNC_RESULT_FALSES, s)
  | some _, some _ => (SYNC_RESULT_FALSES, s)

/-- The `fromDeleted == null && toDeleted == null` step of the directory
half of `synchronizeOne` (materialize the side with the `NOT_EXISTS`
sentinel, else replicate the older record — "prioritize older"). -/
def dirBothLive (fromSide : Side) (toSide : Side) (p : Path)
    (fromRecord : FNRecord) (toRecord : FNRecord) (s : SyncState) :
    SyncResult × SyncState :=
  if fromRecord.modified = 0 then
    ({ SYNC_RESULT_FALSES with backward := true }, makeDirectory fromSide toRecord s)
  else if toRecord.modified = 0 then
    ({ SYNC_RESULT_FALSES with forward := true }, makeDirectory toSide fromRecord s)
  else if toRecord.modified < fromRecord.modified then
    ({ SYNC_RESULT_FALSES with backward := true }, saveRecordOp fromSide p toRecord s)
  else if fromRecord.modified < toRecord.modified then
    ({ SYNC_RESULT_FALSES with forward := true }, saveRecordOp toSide p fromRecord s)
  else (SYNC_RESULT_FALSES, s)

/-- The directory half of `synchronizeOne`'s decision table. -/
def syncDirBranch (env : Env)
    (children : Side → Side → Path → Bool → SyncState → Res SyncResult)
    (fromSide : Side) (toSide : Side) (p : Path)
    (fromRecord : FNRecord) (toRecord : FNRecord) (recursively : Bool) (s : SyncState) :
    SyncResult × SyncState :=
  match fromRecord.deleted, toRecord.deleted with
  | some fd, none =>
    if fd < toRecord.modified then
      match
        children toSide fromSide p true
          (emit (Op.childrenCall toSide p true) (makeDirectory fromSide toRecord s)) with
      | Res.ok _ s => ({ SYNC_RESULT_FALSES with backward := true }, s)
      | Res.err e s => absorbErr e SYNC_RESULT_FALSES p s
    else
      if toRecord.modified ≠ 0 then
        ({ SYNC_RESULT_FALSES with forward := true }, deleteEntry env toSide toRecord s)
      else
        if fromSide = Side.loc then (SYNC_RESULT_FALSES, doDeleteIndexState fromSide p s)
        else (SYNC_RESULT_FALSES, s)
  | none, some td =>
    if td < fromRecord.modified then
      match
        children fromSide toSide p true
          (emit (Op.childrenCall fromSide p true) (makeDirectory toSide fromRecord s)) with
      | Res.ok _ s => ({ SYNC_RESULT_FALSES with forward := true }, s)
      | Res.err e s => absorbErr e SYNC_RESULT_FALSES p s
    else
      if fromRecord.modified ≠ 0 then
        ({ SYNC_RESULT_FALSES with backward := true }, deleteEntry env fromSide fromRecord s)
      else
        if toSide = Side.loc then (SYNC_RESULT_FALSES, doDeleteIndexState toSide p s)
        else (SYNC_RESULT_FALSES, s)
  | none, none =>
    if recursively then
      match
        children fromSide toSide p recursively
          (emit (Op.childrenCall fromSide p recursively)
            (dirBothLive fromSide toSide p fromRecord toRecord s).2) with
      | Res.ok _ s2 => ((dirBothLive fromSide toSide p fromRecord toRecord s).1, s2)
      | Res.err e s2 => absorbErr e (dirBothLive fromSide toSide p fromRecord toRecord s).1 p s2
    else dirBothLive fromSide toSide p fromRecord toRecord s
  | some _, some _ => (SYNC_RESULT_FALSES, s)

/-- `Synchronizer.synchronizeOne` of the final variant: record resolution
and synthesis, type-conflict check, tombstone-vs-tombstone no-op, then the
file or directory decision table.  The per-entry catch-all is inlined at
each point where an exception can escape (`absorbErr`), so the function
always returns. -/
def synchronizeOne (env : Env)
    (children : Side → Side → Path → Bool → SyncState → Res SyncResult)
    (fromSide : Side) (toSide : Side) (dir : Path) (name : String)
    (recursively : Bool) (s : SyncState) : SyncResult × SyncState :=
  let s := emit (Op.visited fromSide name) s
  match resolveRecords (lookupRecord s fromSide dir name) (lookupRecord s toSide dir name) with
  | none => (SYNC_RESULT_FALSES, emit (Op.warnOp (childPath dir name)) s)
  | some (fromRecord, toRecord) =>
    let p := fromRecord.fullPath
    if fromRecord.size = none ∧ toRecord.size ≠ none then
      (SYNC_RESULT_FALSES, emit (Op.warnOp p) s)
    else if fromRecord.size ≠ none ∧ toRecord.size = none then
      (SYNC_RESULT_FALSES, emit (Op.warnOp p) s)
    else if fromRecord.deleted ≠ none ∧ toRecord.deleted ≠ none then
      (SYNC_RESULT_FALSES, s)
    else if fromRecord.size ≠ none then
      syncFileBranch env fromSide toSide p fromRecord toRecord s
    else
      syncDirBranch env children fromSide toSide p fromRecord toRecord recursively s

/-- Insert a record into a `modified`-descending list (stable). -/
def insRecDesc (r : FNRecord) : List FNRecord → List FNRecord
  | [] => [r]
  | x :: xs => if x.modified < r.modified then r :: x :: xs else x :: insRecDesc r xs

/-- Stable sort of records by `modified` descending
(`DEFAULT_HANDLER.getNames`'s comparator `b.modified - a.modified`). -/
def sortRecordsDesc (l : List FNRecord) : List FNRecord :=
  l.foldl (fun acc r => insRecDesc r acc) []

/-- `DEFAULT_HANDLER.getNames`: the record names, most recently modified
first. -/
def getNames (idx : NameIndex) : List String :=
  (sortRecordsDesc (idx.map (fun q => q.2))).map (fun r => r.name)

/-- The `outer:` loop of `synchronizeChildren`: reconcile every
non-excluded from-name; a matching to-name is spliced out of the to-list
(`List.erase` leaves the list unchanged when the name is absent, which is
the "destination not found" case — the same reconciliation call is made
either way). -/
def processFrom (env : Env) (one : Side → Side → String → SyncState → SyncResult × SyncState)
    (a : Side) (b : Side) :
    List String → List String → SyncResult → SyncState →
    (SyncResult × List String) × SyncState
  | [], toNames, acc, s => ((acc, toNames), s)
  | n :: rest, toNames, acc, s =>
    if env.excludeName n then processFrom env one a b rest toNames acc s
    else
      let q := one a b n s
      processFrom env one a b rest (toNames.erase n) (mergeResult q.1 acc) q.2

/-- The "source not found" loop of `synchronizeChildren` over the
remaining to-names (the caller swaps the sides). -/
def processTo (env : Env) (one : Side → Side → String → SyncState → SyncResult × SyncState)
    (a : Side) (b : Side) :
    List String → SyncResult → SyncState → SyncResult × SyncState
  | [], acc, s => (acc, s)
  | n :: rest, acc, s =>
    if env.excludeName n then processTo env one a b rest acc s
    else
      let q := one a b n s
      processTo env one a b rest (mergeResult q.1 acc) q.2

/-- One level of `Synchronizer.synchronizeChildren`: excluded directory
paths short-circuit, both indexes are fetched (fetch errors propagate —
this variant does not catch them here), then the two loops run and the
two partial results are combined with the direction swap for the
second loop. -/
def synchronizeChildrenStep (env : Env)
    (one : Side → Side → String → SyncState → SyncResult × SyncState)
    (a : Side) (b : Side) (dir : Path) (s : SyncState) : Res SyncResult :=
  if env.excludePath dir then Res.ok SYNC_RESULT_FALSES s
  else
    match getFileNameIndex a dir s with
    | Res.err e s => Res.err e s
    | Res.ok fi s =>
      match getFileNameIndex b dir s with
      | Res.err e s => Res.err e s
      | Res.ok ti s =>
        let fromNames := getNames fi
        let toNames := getNames ti
        let q1 := processFrom env one a b fromNames toNames SYNC_RESULT_FALSES s
        let ftr := q1.1.1
        let q2 := processTo env one b a q1.1.2 SYNC_RESULT_FALSES q1.2
        let tfr := q2.1
        Res.ok
          { forward := ftr.forward || tfr.backward,
            backward := ftr.backward || tfr.forward,
            errors := ftr.errors ++ tfr.errors } q2.2

/-- `Synchronizer.synchronizeChildren`, fuelled: recursive descent
consumes one unit of fuel per level (a modelling artifact; exhausted fuel
yields `SYNC_RESULT_FALSES` with no effect, and every claim is stated
with enough fuel). -/
def syncChildren (env : Env) :
    Nat → Side → Side → Path → Bool → SyncState → Res SyncResult
  | 0, _, _, _, _, s => Res.ok SYNC_RESULT_FALSES s
  | Nat.succ fuel, a, b, dir, recursively, s =>
    synchronizeChildrenStep env
      (fun a' b' n s' =>
        synchronizeOne env (syncChildren env fuel) a' b' dir n recursively s')
      a b dir s

/-- `Synchronizer.synchronizeDirectory` of the final variant: run
`synchronizeChildren` from local to remote; on success invoke
`handler.completed(result)`; any escaped error is caught, a
`SYNC_RESULT_FALSES` result carrying the error is built,
`handler.completed(result, e)` is invoked, and that result is returned
(the function never rejects).  The `completed` invocation is recorded as
`Op.completedOp`; the default handler's `completed` does nothing. -/
def synchronizeDirectory (env : Env) (fuel : Nat) (dirPath : Path) (recursively : Bool)
    (s : SyncState) : SyncResult × SyncState :=
  match syncChildren env fuel Side.loc Side.rem dirPath recursively s with
  | Res.ok r s => (r, emit (Op.completedOp r.forward r.backward r.errors false) s)
  | Res.err e s =>
    let r := { SYNC_RESULT_FALSES with errors := [e] }
    (r, emit (Op.completedOp r.forward r.backward r.errors true) s)

/-- `Synchronizer.synchronizeAll`: `synchronizeDirectory` on the root
with `recursively = true`. -/
def synchronizeAll (env : Env) (fuel : Nat) (s : SyncState) : SyncResult × SyncState :=
  synchronizeDirectory env fuel [] true s

/-! ## The middle variant (`src/src/Synchronizer.ts`, lines 456-1043)

Prefixed `v2`.  Its `SyncResult` has no error list; its recursion budget
is a number, with `Number.MAX_VALUE` modelled as `none` (the float
`MAX_VALUE - 1 === MAX_VALUE`, so `none` decrements to `none`); its index
mutations are direct in-memory map writes (`toFileNameIndex[name] = ...`),
modelled as plain state updates without a trace operation; its physical
deletes are raw `doDelete` calls that do not touch the index; its
`options.shared` is taken as `false` (no `clearFileNameIndex`). -/

/-- `SyncResult` of the middle variant. -/
structure V2Result where
  forward : Bool
  backward : Bool
deriving DecidableEq

/-- `SYNC_RESULT_FALSES` of the middle variant. -/
def V2_FALSES : V2Result := { forward := false, backward := false }

/-- `mergeResult` of the middle variant. -/
def v2MergeResult (newResult : V2Result) (result : V2Result) : V2Result :=
  { forward := result.forward || newResult.forward,
    backward := result.backward || newResult.backward }

/-- `setResult`: translate a generic forward/backward outcome into
local/remote flags by checking which accessor is the local one. -/
def setResult (fromSide : Side) (forward : Bool) (result : V2Result) : V2Result :=
  if fromSide = Side.loc then v2MergeResult { forward := forward, backward := !forward } result
  else v2MergeResult { forward := !forward, backward := forward } result

/-- The recursion budget: `0 < recursiveCount`. -/
def v2CountPos (count : Option Nat) : Bool :=
  match count with
  | none => true
  | some k => 0 < k

/-- The budget decrement `recursiveCount - 1` (`MAX_VALUE` stays
`MAX_VALUE`). -/
def v2CountDec (count : Option Nat) : Option Nat :=
  match count with
  | none => none
  | some k => some (k - 1)

/-- Direct in-memory index write `fileNameIndex[name] = rec` of the
middle variant (no accessor call, hence no trace operation). -/
def v2SetIdx (s : SyncState) (sd : Side) (dir : Path) (name : String) (rec : FNRecord) :
    SyncState :=
  let r := sideRep s sd
  let idx := (alGet r.indexes dir).getD []
  setSideRep s sd { r with indexes := alSet r.indexes dir (alSet idx name rec) }

/-- Direct in-memory index removal `delete fileNameIndex[name]`. -/
def v2DelIdx (s : SyncState) (sd : Side) (dir : Path) (name : String) : SyncState :=
  let r := sideRep s sd
  let idx := (alGet r.indexes dir).getD []
  setSideRep s sd { r with indexes := alSet r.indexes dir (alErase idx name) }

/-- Modelled from the spec: the raw `accessor.doDelete(fullPath, isFile)`
used by the middle variant — remove the file content or the directory
object, with no index side effect; missing targets raise
`NotFoundError`. -/
def backendRawDelete (sd : Side) (p : Path) (isFile : Bool) (s : SyncState) : Res Unit :=
  let s := emit (Op.deleteBackend sd p isFile) s
  let r := sideRep s sd
  if isFile then
    match alGet r.contents p with
    | none => Res.err Err.notFound s
    | some _ => Res.ok () (setSideRep s sd { r with contents := alErase r.contents p })
  else
    if p ∈ r.dirs then Res.ok () (setSideRep s sd { r with dirs := r.dirs.filter (fun q => q ≠ p) })
    else Res.err Err.notFound s

/-- `deleteEntry` of the middle variant: raw delete, `NotFoundError`
swallowed. -/
def v2DeleteEntry (sd : Side) (p : Path) (isFile : Bool) (s : SyncState) : SyncState :=
  match backendRawDelete sd p isFile s with
  | Res.ok _ s => s
  | Res.err _ s => s

/-- `copyFile` of the middle variant: read the content on the from side
and write it on the to side (`readContentInternal` / `doWriteContent`);
no index write happens inside. -/
def v2CopyFile (fromSide : Side) (toSide : Side) (rec : FNRecord) (s : SyncState) : Res Unit :=
  transferContent fromSide toSide rec.fullPath s

/-- The file half of the middle variant's `synchronizeOne`. -/
def v2FileBranch (env : Env) (fromSide : Side) (toSide : Side) (dir : Path) (name : String)
    (p : Path) (fromRecord : FNRecord) (toRecord : FNRecord) (s : SyncState) :
    V2Result × SyncState :=
  match fromRecord.deleted, toRecord.deleted with
  | some fd, none =>
    if fd ≤ toRecord.modified then
      match v2CopyFile toSide fromSide toRecord s with
      | Res.ok _ s =>
        (setResult fromSide false V2_FALSES, v2SetIdx s fromSide dir name toRecord)
      | Res.err Err.notFound s =>
        if toSide = Side.rem then
          ({ forward := true, backward := false },
            v2SetIdx s toSide dir name { toRecord with deleted := some env.now })
        else ({ forward := false, backward := true }, v2DelIdx s toSide dir name)
      | Res.err _ s => (V2_FALSES, emit (Op.warnOp p) s)
    else
      let s := if toRecord.modified ≠ 0 then v2DeleteEntry toSide p true s else s
      if toSide = Side.rem then
        ({ forward := true, backward := true },
          v2DelIdx (v2SetIdx s toSide dir name fromRecord) fromSide dir name)
      else (V2_FALSES, s)
  | none, some td =>
    if td ≤ fromRecord.modified then
      match v2CopyFile fromSide toSide fromRecord s with
      | Res.ok _ s =>
        (setResult fromSide true V2_FALSES, v2SetIdx s toSide dir name fromRecord)
      | Res.err Err.notFound s =>
        if fromSide = Side.rem then
          ({ forward := true, backward := false },
            v2SetIdx s fromSide dir name { fromRecord with deleted := some env.now })
        else ({ forward := false, backward := true }, v2DelIdx s fromSide dir name)
      | Res.err _ s => (V2_FALSES, emit (Op.warnOp p) s)
    else
      let s := if fromRecord.modified ≠ 0 then v2DeleteEntry fromSide p true s else s
      if fromSide = Side.rem then
        ({ forward := true, backward := true },
          v2DelIdx (v2SetIdx s fromSide dir name toRecord) toSide dir name)
      else (V2_FALSES, s)
  | some fd, some td =>
    let s :=
      if fd < td then v2SetIdx s toSide dir name fromRecord
      else if td < fd then v2SetIdx s fromSide dir name toRecord
      else s
    if toSide = Side.rem then
      ({ forward := false, backward := true }, v2DelIdx s fromSide dir name)
    else ({ forward := false, backward := true }, v2DelIdx s toSide dir name)
  | none, none =>
    if toRecord.modified < fromRecord.modified then
      match v2CopyFile fromSide toSide fromRecord s with
      | Res.ok _ s =>
        (setResult fromSide true V2_FALSES, v2SetIdx s toSide dir name fromRecord)
      | Res.err Err.notFound s =>
        if toSide = Side.rem then
          ({ forward := true, backward := false },
            v2SetIdx s toSide dir name { toRecord with deleted := some env.now })
        else ({ forward := false, backward := true }, v2DelIdx s toSide dir name)
      | Res.err _ s => (V2_FALSES, emit (Op.warnOp p) s)
    else if fromRecord.modified < toRecord.modified then
      match v2CopyFile toSide fromSide toRecord s with
      | Res.ok _ s =>
        (setResult fromSide false V2_FALSES, v2SetIdx s fromSide dir name toRecord)
      | Res.err Err.notFound s =>
        if fromSide = Side.rem then
          ({ forward := true, backward := false },
            v2SetIdx s fromSide dir name { fromRecord with deleted := some env.now })
        else ({ forward := false, backward := true }, v2DelIdx s fromSide dir name)
      | Res.err _ s => (V2_FALSES, emit (Op.warnOp p) s)
    else (V2_FALSES, s)

/-- The directory half of the middle variant's `synchronizeOne`.  This is
the half with the forced full recursion: both deletion-propagation
branches first run `synchronizeChildren` with `Number.MAX_VALUE` and only
then delete the directory. -/
def v2DirBranch (_env : Env)
    (children : Side → Side → Path → Option Nat → SyncState → V2Result × SyncState)
    (fromSide : Side) (toSide : Side) (dir : Path) (name : String)
    (p : Path) (fromRecord : FNRecord) (toRecord : FNRecord) (count : Option Nat)
    (s : SyncState) : V2Result × SyncState :=
  match fromRecord.deleted, toRecord.deleted with
  | some fd, none =>
    if fd ≤ toRecord.modified then
      let s := backendPutDir fromSide p s
      let s := emit (Op.childrenCallN toSide p none) s
      let q := children toSide fromSide p none s
      (setResult fromSide false V2_FALSES, v2SetIdx q.2 fromSide dir name toRecord)
    else
      let s :=
        if toRecord.modified ≠ 0 then
          let s := emit (Op.childrenCallN fromSide p none) s
          let q := children fromSide toSide p none s
          v2DeleteEntry toSide p false q.2
        else s
      if toSide = Side.rem then
        ({ forward := true, backward := true },
          v2DelIdx (v2SetIdx s toSide dir name fromRecord) fromSide dir name)
      else (V2_FALSES, s)
  | none, some td =>
    if td ≤ fromRecord.modified then
      let s := backendPutDir toSide p s
      let s := emit (Op.childrenCallN fromSide p none) s
      let q := children fromSide toSide p none s
      (setResult fromSide true V2_FALSES, v2SetIdx q.2 toSide dir name fromRecord)
    else
      let s :=
        if fromRecord.modified ≠ 0 then
          let s := emit (Op.childrenCallN fromSide p none) s
          let q := children fromSide toSide p none s
          v2DeleteEntry fromSide p false q.2
        else s
      if fromSide = Side.rem then
        ({ forward := true, backward := true },
          v2DelIdx (v2SetIdx s fromSide dir name toRecord) toSide dir name)
      else (V2_FALSES, s)
  | some fd, some td =>
    let step :=
      if fd < td then (setResult fromSide true V2_FALSES, v2SetIdx s toSide dir name fromRecord)
      else if td < fd then (setResult fromSide false V2_FALSES, v2SetIdx s fromSide dir name toRecord)
      else (V2_FALSES, s)
    if toSide = Side.rem then
      ({ step.1 with backward := true }, v2DelIdx step.2 fromSide dir name)
    else ({ step.1 with backward := true }, v2DelIdx step.2 toSide dir name)
  | none, none =>
    let step :=
      if toRecord.modified < fromRecord.modified then
        (setResult fromSide true V2_FALSES, v2SetIdx s toSide dir name fromRecord)
      else if fromRecord.modified < toRecord.modified then
        (setResult fromSide false V2_FALSES, v2SetIdx s fromSide dir name toRecord)
      else (V2_FALSES, s)
    let step2 :=
      if toRecord.modified = 0 then
        (setResult fromSide true step.1, backendPutDir toSide p step.2)
      else if fromRecord.modified = 0 then
        (setResult fromSide false step.1, backendPutDir fromSide p step.2)
      else step
    if v2CountPos count then
      let s := emit (Op.childrenCallN fromSide p (v2CountDec count)) step2.2
      let q := children fromSide toSide p (v2CountDec count) s
      (step2.1, q.2)
    else step2

/-- `synchronizeOne` of the middle variant: record resolution/synthesis,
type-conflict check (warn and skip), then the file or directory decision
table; the surrounding catch only logs, and the only raisers (`copyFile`
failures that are not `NotFoundError`) are absorbed in place, so the
function always returns. -/
def v2SynchronizeOne (env : Env)
    (children : Side → Side → Path → Option Nat → SyncState → V2Result × SyncState)
    (fromSide : Side) (toSide : Side) (dir : Path) (name : String)
    (count : Option Nat) (s : SyncState) : V2Result × SyncState :=
  let s := emit (Op.visited fromSide name) s
  match resolveRecords (lookupRecord s fromSide dir name) (lookupRecord s toSide dir name) with
  | none => (V2_FALSES, emit (Op.warnOp (childPath dir name)) s)
  | some (fromRecord, toRecord) =>
    let p := fromRecord.fullPath
    if fromRecord.size = none ∧ toRecord.size ≠ none then
      (V2_FALSES, emit (Op.warnOp p) s)
    else if fromRecord.size ≠ none ∧ toRecord.size = none then
      (V2_FALSES, emit (Op.warnOp p) s)
    else if fromRecord.size ≠ none then
      v2FileBranch env fromSide toSide dir name p fromRecord toRecord s
    else
      v2DirBranch env children fromSide toSide dir name p fromRecord toRecord count s

/-- The `outer:` loop of the middle variant's `synchronizeChildren`
(exclusion already filtered out of the name lists). -/
def v2ProcessFrom (one : Side → Side → String → SyncState → V2Result × SyncState)
    (a : Side) (b : Side) :
    List String → List String → V2Result → SyncState →
    (V2Result × List String) × SyncState
  | [], toNames, acc, s => ((acc, toNames), s)
  | n :: rest, toNames, acc, s =>
    let q := one a b n s
    v2ProcessFrom one a b rest (toNames.erase n) (v2MergeResult q.1 acc) q.2

/-- The "source not found" loop of the middle variant (sides swapped by
the caller; results merged without a direction swap because
`setResult` already produced absolute flags). -/
def v2ProcessTo (one : Side → Side → String → SyncState → V2Result × SyncState)
    (a : Side) (b : Side) :
    List String → V2Result → SyncState → V2Result × SyncState
  | [], acc, s => (acc, s)
  | n :: rest, acc, s =>
    let q := one a b n s
    v2ProcessTo one a b rest (v2MergeResult q.1 acc) q.2

/-- One level of the middle variant's `synchronizeChildren`: each index
fetch is wrapped in a `try` that warns and returns
`SYNC_RESULT_FALSES` on any error; names are the index keys with excluded
names filtered out; after the loops, each side's index is persisted only
if the matching flag was set. -/
def v2SyncChildrenStep (env : Env)
    (one : Side → Side → String → SyncState → V2Result × SyncState)
    (a : Side) (b : Side) (dir : Path) (s : SyncState) : V2Result × SyncState :=
  match getFileNameIndex a dir s with
  | Res.err _ s => (V2_FALSES, emit (Op.warnOp dir) s)
  | Res.ok fi s =>
    match getFileNameIndex b dir s with
    | Res.err _ s => (V2_FALSES, emit (Op.warnOp dir) s)
    | Res.ok ti s =>
      let fromNames := (fi.map (fun q => q.1)).filter (fun k => ¬ env.excludeName k)
      let toNames := (ti.map (fun q => q.1)).filter (fun k => ¬ env.excludeName k)
      let q1 := v2ProcessFrom one a b fromNames toNames V2_FALSES s
      let q2 := v2ProcessTo one b a q1.1.2 q1.1.1 q1.2
      let r := q2.1
      let s := q2.2
      let s := if r.backward then emit (Op.persistIndex a dir) s else s
      let s := if r.forward then emit (Op.persistIndex b dir) s else s
      (r, s)

/-- `synchronizeChildren` of the middle variant, fuelled. -/
def v2SyncChildren (env : Env) :
    Nat → Side → Side → Path → Option Nat → SyncState → V2Result × SyncState
  | 0, _, _, _, _, s => (V2_FALSES, s)
  | Nat.succ fuel, a, b, dir, count, s =>
    v2SyncChildrenStep env
      (fun a' b' n s' =>
        v2SynchronizeOne env (v2SyncChildren env fuel) a' b' dir n count s')
      a b dir s

/-- The state carried by a `Res`, whether value or error. -/
def stateOf {α : Type} : Res α → SyncState
  | Res.ok _ s => s
  | Res.err _ s => s

/-- `s'` extends `s` by appending operations to the trace (every
computation of the embedding only appends to the trace). -/
def TrExt (s s' : SyncState) : Prop := ∃ t, s'.trace = s.trace ++ t

/-- Going from `s` to `s'` no entry was visited at all: every `Op.visited`
in the final trace was already in the initial one. -/
def NoVis (s s' : SyncState) : Prop :=
  ∀ x m, Op.visited x m ∈ s'.trace → Op.visited x m ∈ s.trace

/-- Going from `s` to `s'` the entry named `n` was never visited: every
`Op.visited _ n` in the final trace was already in the initial one. -/
def NoVisN (n : String) (s s' : SyncState) : Prop :=
  ∀ x, Op.visited x n ∈ s'.trace → Op.visited x n ∈ s.trace

/-! ## Concrete inputs used by witnesses and counterexamples -/

/-- A record for the entry `w` at the root. -/
def wrec (sz : Option Nat) (m : Nat) (d : Option Nat) : FNRecord :=
  { fullPath := ["w"], name := "w", size := sz, modified := m, deleted := d }

/-- A root state holding `fr` for `w` locally and `tr` for `w` remotely;
the remote side has content `9` for `w` and a directory `w`. -/
def wstate (fr tr : FNRecord) : SyncState :=
  { loc := { indexes := [([], [("w", fr)])], contents := [], dirs := [], faulty := [] },
    rem :=
      { indexes := [([], [("w", tr)])], contents := [(["w"], 9)], dirs := [["w"]],
        faulty := [] },
    trace := [] }

/-- A root state holding only a local record `fr` for `w` (the remote
side has an empty root index). -/
def wstateL (fr : FNRecord) : SyncState :=
  { loc := { indexes := [([], [("w", fr)])], contents := [], dirs := [], faulty := [] },
    rem := { indexes := [([], [])], contents := [], dirs := [], faulty := [] },
    trace := [] }

/-- A state whose local root index fetch fails (backend unreachable). -/
def wstateF : SyncState :=
  { loc := { indexes := [], contents := [], dirs := [], faulty := [[]] },
    rem := { indexes := [], contents := [], dirs := [], faulty := [] },
    trace := [] }

/-- A file record for entry `n` at the root. -/
def c1rec (n : String) (sz : Nat) (m : Nat) (d : Option Nat) : FNRecord :=
  { fullPath := [n], name := n, size := some sz, modified := m, deleted := d }

/-- Both replicas hold exactly entry `n` at the root (`recA` locally,
`recB` remotely); the remote side stores content `v` for it. -/
def c1state (n : String) (recA recB : FNRecord) (lcont : List (Path × Nat)) (v : Nat) :
    SyncState :=
  { loc := { indexes := [([], [(n, recA)])], contents := lcont, dirs := [], faulty := [] },
    rem := { indexes := [([], [(n, recB)])], contents := [([n], v)], dirs := [], faulty := [] },
    trace := [] }

/-- A live file record with path `p`, name `n` and modification stamp `m`. -/
def c9rec (p : Path) (n : String) (m : Nat) : FNRecord :=
  { fullPath := p, name := n, size := some 1, modified := m, deleted := none }

/-- A root with two entries `f` and `g`, both newer locally; the local
content of `f` is fault-injected (its transfer raises), the content of
`g` is present. -/
def wstate9 : SyncState :=
  { loc :=
      { indexes := [([], [("f", c9rec ["f"] "f" 30), ("g", c9rec ["g"] "g" 40)])],
        contents := [(["g"], 5)], dirs := [], faulty := [["f"]] },
    rem :=
      { indexes := [([], [("f", c9rec ["f"] "f" 10), ("g", c9rec ["g"] "g" 20)])],
        contents := [], dirs := [], faulty := [] },
    trace := [] }

/-- A root whose only entry `.h` is dot-excluded on both sides (differing
stamps, so it would be reconciled if not excluded); the initial trace
already carries one visit marker, exercising preservation. -/
def wstate6 : SyncState :=
  { loc :=
      { indexes := [([], [(".h", c9rec [".h"] ".h" 30)])], contents := [], dirs := [],
        faulty := [] },
    rem :=
      { indexes := [([], [(".h", c9rec [".h"] ".h" 10)])], contents := [], dirs := [],
        faulty := [] },
    trace := [Op.visited Side.loc ".h"] }

/-- A state whose remote root index fetch fails (backend unreachable). -/
def wstateF2 : SyncState :=
  { loc := { indexes := [], contents := [], dirs := [], faulty := [] },
    rem := { indexes := [], contents := [], dirs := [], faulty := [[]] },
    trace := [] }

/-! ## Plumbing lemmas -/

@[simp]
theorem emit_loc (op : Op) (s : SyncState) : (emit op s).loc = s.loc := rfl

@[simp]
theorem emit_rem (op : Op) (s : SyncState) : (emit op s).rem = s.rem := rfl

@[simp]
theorem emit_trace (op : Op) (s : SyncState) : (emit op s).trace = s.trace ++ [op] := rfl

@[simp]
theorem sideRep_emit (op : Op) (s : SyncState) (sd : Side) :
    sideRep (emit op s) sd = sideRep s sd := by
  cases sd <;> rfl

@[simp]
theorem idxOf_emit (op : Op) (s : SyncState) (sd : Side) (dir : Path) :
    idxOf (emit op s) sd dir = idxOf s sd dir := by
  simp [idxOf]

@[simp]
theorem lookupRecord_emit (op : Op) (s : SyncState) (sd : Side) (dir : Path) (n : String) :
    lookupRecord (emit op s) sd dir n = lookupRecord s sd dir n := by
  simp [lookupRecord]

@[simp]
theorem trace_setSideRep (s : SyncState) (sd : Side) (r : Replica) :
    (setSideRep s sd r).trace = s.trace := by
  cases sd <;> rfl

@[simp]
theorem trace_doDeleteIndexState (sd : Side) (p : Path) (s : SyncState) :
    (doDeleteIndexState sd p s).trace = s.trace ++ [Op.doDeleteIndex sd p] := by
  cases sd <;> rfl

@[simp]
theorem contents_doDeleteIndexState (sd : Side) (p : Path) (s : SyncState) (x : Side) :
    (sideRep (doDeleteIndexState sd p s) x).contents = (sideRep s x).contents := by
  cases sd <;> cases x <;> rfl

@[simp]
theorem dirs_doDeleteIndexState (sd : Side) (p : Path) (s : SyncState) (x : Side) :
    (sideRep (doDeleteIndexState sd p s) x).dirs = (sideRep s x).dirs := by
  cases sd <;> cases x <;> rfl

/-! ## Claim theorems -/

/-- C8: in the final variant's `synchronizeOne`, an entry whose record is
a file (non-null size) on one replica and a directory (null size) on the
other is skipped: the function warns and returns the all-false result,
leaving both replicas' backends and both index records exactly as they
were (the final state differs from the initial one only by the visit
marker and the warning in the trace). -/
theorem C8_type_conflict_skipped (env : Env)
    (children : Side → Side → Path → Bool → SyncState → Res SyncResult)
    (a b : Side) (dir : Path) (n : String) (recursively : Bool) (s : SyncState)
    (fr tr : FNRecord)
    (hf : lookupRecord s a dir n = some fr)
    (ht : lookupRecord s b dir n = some tr)
    (hmix : (fr.size = none ∧ tr.size ≠ none) ∨ (fr.size ≠ none ∧ tr.size = none)) :
    synchronizeOne env children a b dir n recursively s =
      (SYNC_RESULT_FALSES, emit (Op.warnOp fr.fullPath) (emit (Op.visited a n) s)) := by
  unfold synchronizeOne
  simp only [lookupRecord_emit, hf, ht, resolveRecords]
  rcases hmix with ⟨h1, h2⟩ | ⟨h1, h2⟩
  · simp [h1, h2]
  · simp [h1, h2]

/-- C8 witness: a local file against a remote directory of the same name
is skipped with a warning and no change. -/
theorem C8_type_conflict_skipped_witness :
    lookupRecord (wstate (wrec (some 1) 10 none) (wrec none 10 none)) Side.loc [] "w" =
        some (wrec (some 1) 10 none) ∧
    synchronizeOne defaultEnv (syncChildren defaultEnv 0) Side.loc Side.rem [] "w" true
        (wstate (wrec (some 1) 10 none) (wrec none 10 none)) =
      (SYNC_RESULT_FALSES,
        emit (Op.warnOp ["w"])
          (emit (Op.visited Side.loc "w") (wstate (wrec (some 1) 10 none) (wrec none 10 none)))) :=
  ⟨by decide,
    C8_type_conflict_skipped defaultEnv (syncChildren defaultEnv 0) Side.loc Side.rem []
      "w" true (wstate (wrec (some 1) 10 none) (wrec none 10 none))
      (wrec (some 1) 10 none) (wrec none 10 none) (by decide) (by decide)
      (Or.inr ⟨by decide, by decide⟩)⟩

/-- C2 counterexample: with both sides tombstoned (local deleted at 1,
remote at 2), the claim says the strictly older local tombstone wins and
overwrites the remote index record; the final variant's `synchronizeOne`
leaves the remote record untouched (it still differs from the local
one). -/
theorem C2_counterexample :
    lookupRecord
        (synchronizeOne defaultEnv (syncChildren defaultEnv 1) Side.loc Side.rem [] "w" true
          (wstate (wrec (some 1) 5 (some 1)) (wrec (some 1) 5 (some 2)))).2
        Side.rem [] "w" = some (wrec (some 1) 5 (some 2)) ∧
      wrec (some 1) 5 (some 2) ≠ wrec (some 1) 5 (some 1) := by
  constructor
  · decide
  · decide

/-- C2 (amended): in the final variant's `synchronizeOne`, an entry whose
records carry `deleted` on both sides is a complete no-op regardless of
the two deletion timestamps: no replication to either side, no content or
backend operation, no index change — the state is unchanged except for
the visit marker in the trace — and the all-false result is returned. -/
theorem C2_both_tombstones_noop (env : Env)
    (children : Side → Side → Path → Bool → SyncState → Res SyncResult)
    (a b : Side) (dir : Path) (n : String) (recursively : Bool) (s : SyncState)
    (fr tr : FNRecord)
    (hf : lookupRecord s a dir n = some fr)
    (ht : lookupRecord s b dir n = some tr)
    (hfd : fr.deleted ≠ none) (htd : tr.deleted ≠ none)
    (hcompat : fr.size = none ↔ tr.size = none) :
    synchronizeOne env children a b dir n recursively s =
      (SYNC_RESULT_FALSES, emit (Op.visited a n) s) := by
  unfold synchronizeOne
  simp only [lookupRecord_emit, hf, ht, resolveRecords]
  have h1 : ¬(fr.size = none ∧ tr.size ≠ none) := fun h => h.2 (hcompat.mp h.1)
  have h2 : ¬(fr.size ≠ none ∧ tr.size = none) := fun h => h.1 (hcompat.mpr h.2)
  simp [h1, h2, hfd, htd]

/-- C2 amended witness: tombstones at 1 (local) and 2 (remote) are left
as they are with the all-false result. -/
theorem C2_both_tombstones_noop_witness :
    (wrec (some 1) 5 (some 1)).deleted ≠ none ∧
    synchronizeOne defaultEnv (syncChildren defaultEnv 1) Side.loc Side.rem [] "w" true
        (wstate (wrec (some 1) 5 (some 1)) (wrec (some 1) 5 (some 2))) =
      (SYNC_RESULT_FALSES,
        emit (Op.visited Side.loc "w")
          (wstate (wrec (some 1) 5 (some 1)) (wrec (some 1) 5 (some 2)))) :=
  ⟨by decide,
    C2_both_tombstones_noop defaultEnv (syncChildren defaultEnv 1) Side.loc Side.rem []
      "w" true (wstate (wrec (some 1) 5 (some 1)) (wrec (some 1) 5 (some 2)))
      (wrec (some 1) 5 (some 1)) (wrec (some 1) 5 (some 2)) (by decide) (by decide)
      (by decide) (by decide) (by decide)⟩

/-- C4: in the final variant's `synchronizeOne`, when one side holds a
tombstone and the propagation target side's record carries the sentinel
`modified = 0` (including the synthesized-record case, via
`resolveRecords`), no physical delete is issued against any backend and
no content or directory changes: only index state (and the trace) can
change, and the all-false result is returned. -/
theorem C4_sentinel_no_physical_delete (env : Env)
    (children : Side → Side → Path → Bool → SyncState → Res SyncResult)
    (a b : Side) (dir : Path) (n : String) (recursively : Bool) (s : SyncState)
    (fr tr : FNRecord)
    (hres : resolveRecords (lookupRecord s a dir n) (lookupRecord s b dir n) = some (fr, tr))
    (hcompat : fr.size = none ↔ tr.size = none)
    (horient :
      (fr.deleted ≠ none ∧ tr.deleted = none ∧ tr.modified = 0) ∨
      (tr.deleted ≠ none ∧ fr.deleted = none ∧ fr.modified = 0)) :
    (synchronizeOne env children a b dir n recursively s).1 = SYNC_RESULT_FALSES ∧
    (∀ x q f, Op.deleteBackend x q f ∈ (synchronizeOne env children a b dir n recursively s).2.trace →
      Op.deleteBackend x q f ∈ s.trace) ∧
    (∀ x, (sideRep (synchronizeOne env children a b dir n recursively s).2 x).contents =
      (sideRep s x).contents) ∧
    (∀ x, (sideRep (synchronizeOne env children a b dir n recursively s).2 x).dirs =
      (sideRep s x).dirs) := by
  have h1 : ¬(fr.size = none ∧ tr.size ≠ none) := fun h => h.2 (hcompat.mp h.1)
  have h2 : ¬(fr.size ≠ none ∧ tr.size = none) := fun h => h.1 (hcompat.mpr h.2)
  unfold synchronizeOne
  simp only [lookupRecord_emit, hres, h1, h2]
  rcases horient with ⟨hfd, htd, hm0⟩ | ⟨htd, hfd, hm0⟩ <;>
    obtain ⟨d, hd⟩ := Option.ne_none_iff_exists'.mp (by simpa using ‹_ ≠ (none : Option Nat)›)
  · have hboth : ¬(fr.deleted ≠ none ∧ tr.deleted ≠ none) := fun h => h.2 htd
    by_cases hs : fr.size = none
    · simp only [if_neg hboth, hs]
      simp only [syncDirBranch, hd, htd, hm0, if_neg (by decide : ¬ true = false)]
      simp [Nat.not_lt_zero]
      split <;> simp
    · simp only [if_neg hboth, if_pos (by simp [hs] : fr.size ≠ none)]
      simp only [syncFileBranch, hd, htd, hm0]
      simp [Nat.not_lt_zero]
      split <;> simp
  · have hboth : ¬(fr.deleted ≠ none ∧ tr.deleted ≠ none) := fun h => h.1 hfd
    by_cases hs : fr.size = none
    · simp only [if_neg hboth, hs]
      simp only [syncDirBranch, hd, hfd, hm0]
      simp [Nat.not_lt_zero]
      split <;> simp
    · simp only [if_neg hboth, if_pos (by simp [hs] : fr.size ≠ none)]
      simp only [syncFileBranch, hd, hfd, hm0]
      simp [Nat.not_lt_zero]
      split <;> simp

/-! ## Trace monotonicity: every computation only appends to the trace -/

theorem trExt_rfl (s : SyncState) : TrExt s s := ⟨[], by simp⟩

theorem trExt_trans {s1 s2 s3 : SyncState} (h1 : TrExt s1 s2) (h2 : TrExt s2 s3) :
    TrExt s1 s3 := by
  obtain ⟨t1, e1⟩ := h1
  obtain ⟨t2, e2⟩ := h2
  exact ⟨t1 ++ t2, by simp [e2, e1]⟩

theorem trExt_mem {s s' : SyncState} {op : Op} (h : TrExt s s') (hm : op ∈ s.trace) :
    op ∈ s'.trace := by
  obtain ⟨t, e⟩ := h
  simp [e, hm]

theorem trExt_emit (op : Op) (s : SyncState) : TrExt s (emit op s) := ⟨[op], rfl⟩

@[simp]
theorem trace_saveRecordState (s : SyncState) (sd : Side) (p : Path) (rec : FNRecord) :
    (saveRecordState s sd p rec).trace = s.trace := by
  simp [saveRecordState]

@[simp]
theorem trace_deleteRecordState (s : SyncState) (sd : Side) (p : Path) :
    (deleteRecordState s sd p).trace = s.trace := by
  simp [deleteRecordState]

@[simp]
theorem trace_tombstoneState (s : SyncState) (sd : Side) (p : Path) (now : Nat) :
    (tombstoneState s sd p now).trace = s.trace := by
  unfold tombstoneState
  dsimp only
  split
  · rfl
  · split
    · rfl
    · simp

theorem trExt_saveRecordOp (sd : Side) (p : Path) (rec : FNRecord) (s : SyncState) :
    TrExt s (saveRecordOp sd p rec s) := ⟨[Op.saveRecord sd p rec], by simp [saveRecordOp]⟩

theorem trExt_deleteRecordOp (sd : Side) (p : Path) (s : SyncState) :
    TrExt s (deleteRecordOp sd p s) := ⟨[Op.deleteRecord sd p], by simp [deleteRecordOp]⟩

theorem trExt_doDeleteIndexState (sd : Side) (p : Path) (s : SyncState) :
    TrExt s (doDeleteIndexState sd p s) := ⟨[Op.doDeleteIndex sd p], by simp⟩

theorem trExt_backendPutDir (sd : Side) (p : Path) (s : SyncState) :
    TrExt s (backendPutDir sd p s) := by
  unfold backendPutDir
  dsimp only
  split
  · exact trExt_emit _ _
  · exact ⟨[Op.putObject sd p], by simp⟩

theorem trExt_makeDirectory (sd : Side) (rec : FNRecord) (s : SyncState) :
    TrExt s (makeDirectory sd rec s) :=
  trExt_trans (trExt_backendPutDir _ _ _) (trExt_saveRecordOp _ _ _ _)

theorem trExt_transferContent {a b : Side} {p : Path} {s : SyncState} {r : Res Unit}
    (h : transferContent a b p s = r) : TrExt s (stateOf r) := by
  unfold transferContent at h
  subst h
  dsimp only
  split
  · exact trExt_emit _ _
  · split
    · exact trExt_emit _ _
    · exact ⟨[Op.transfer a b p], by simp [stateOf]⟩

theorem trExt_backendDeleteFile {sd : Side} {p : Path} {now : Nat} {s : SyncState}
    {r : Res Unit} (h : backendDeleteFile sd p now s = r) : TrExt s (stateOf r) := by
  unfold backendDeleteFile at h
  subst h
  dsimp only
  split
  · exact trExt_emit _ _
  · exact ⟨[Op.deleteBackend sd p true], by simp [stateOf]⟩

theorem trExt_backendDeleteDir {sd : Side} {p : Path} {now : Nat} {s : SyncState}
    {r : Res Unit} (h : backendDeleteDir sd p now s = r) : TrExt s (stateOf r) := by
  unfold backendDeleteDir at h
  subst h
  dsimp only
  split
  · exact ⟨[Op.deleteBackend sd p false], by simp [stateOf]⟩
  · exact trExt_emit _ _

theorem trExt_copyFile {a b : Side} {rec : FNRecord} {s : SyncState} {r : Res Unit}
    (h : copyFile a b rec s = r) : TrExt s (stateOf r) := by
  unfold copyFile at h
  subst h
  split
  case _ u s1 heq =>
    exact trExt_trans (by simpa [stateOf] using trExt_transferContent heq)
      (trExt_saveRecordOp _ _ _ _)
  case _ e s1 heq =>
    simpa [stateOf] using trExt_transferContent heq

theorem trExt_deleteEntry (env : Env) (sd : Side) (rec : FNRecord) (s : SyncState) :
    TrExt s (deleteEntry env sd rec s) := by
  unfold deleteEntry
  split
  · split
    case _ heq => simpa [stateOf] using trExt_backendDeleteFile heq
    case _ heq => simpa [stateOf] using trExt_backendDeleteFile heq
  · split
    case _ heq => simpa [stateOf] using trExt_backendDeleteDir heq
    case _ heq => simpa [stateOf] using trExt_backendDeleteDir heq

theorem trExt_absorbErr (e : Err) (r : SyncResult) (p : Path) (s : SyncState) :
    TrExt s (absorbErr e r p s).2 := trExt_emit _ _

theorem trExt_syncFileBranch (env : Env) (a b : Side) (p : Path) (fr tr : FNRecord)
    (s : SyncState) : TrExt s (syncFileBranch env a b p fr tr s).2 := by
  unfold syncFileBranch
  split
  · split
    · split
      case _ heq => simpa [stateOf] using trExt_copyFile heq
      case _ heq =>
        exact trExt_trans (by simpa [stateOf] using trExt_copyFile heq)
          (trExt_deleteRecordOp _ _ _)
      case _ heq => exact trExt_trans (by simpa [stateOf] using trExt_copyFile heq) (trExt_emit _ _)
    · split
      · exact trExt_deleteEntry _ _ _ _
      · split
        · exact trExt_doDeleteIndexState _ _ _
        · exact trExt_rfl _
  · split
    · split
      case _ heq => simpa [stateOf] using trExt_copyFile heq
      case _ heq =>
        exact trExt_trans (by simpa [stateOf] using trExt_copyFile heq)
          (trExt_deleteRecordOp _ _ _)
      case _ heq => exact trExt_trans (by simpa [stateOf] using trExt_copyFile heq) (trExt_emit _ _)
    · split
      · exact trExt_deleteEntry _ _ _ _
      · split
        · exact trExt_doDeleteIndexState _ _ _
        · exact trExt_rfl _
  · split
    · split
      case _ heq => simpa [stateOf] using trExt_copyFile heq
      case _ heq =>
        refine trExt_trans (by simpa [stateOf] using trExt_copyFile heq) ?_
        split
        case _ heq2 => simpa [stateOf] using trExt_copyFile heq2
        case _ heq2 =>
          exact trExt_trans (by simpa [stateOf] using trExt_copyFile heq2)
            (trExt_trans (trExt_deleteEntry _ _ _ _) (trExt_deleteEntry _ _ _ _))
        case _ heq2 =>
          exact trExt_trans (by simpa [stateOf] using trExt_copyFile heq2) (trExt_emit _ _)
      case _ heq => exact trExt_trans (by simpa [stateOf] using trExt_copyFile heq) (trExt_emit _ _)
    · split
      · split
        case _ heq => simpa [stateOf] using trExt_copyFile heq
        case _ heq =>
          refine trExt_trans (by simpa [stateOf] using trExt_copyFile heq) ?_
          split
          case _ heq2 => simpa [stateOf] using trExt_copyFile heq2
          case _ heq2 =>
            exact trExt_trans (by simpa [stateOf] using trExt_copyFile heq2)
              (trExt_trans (trExt_deleteEntry _ _ _ _) (trExt_deleteEntry _ _ _ _))
          case _ heq2 =>
            exact trExt_trans (by simpa [stateOf] using trExt_copyFile heq2) (trExt_emit _ _)
        case _ heq => exact trExt_trans (by simpa [stateOf] using trExt_copyFile heq) (trExt_emit _ _)
      · exact trExt_rfl _
  · exact trExt_rfl _

theorem trExt_dirBothLive (a b : Side) (p : Path) (fr tr : FNRecord) (s : SyncState) :
    TrExt s (dirBothLive a b p fr tr s).2 := by
  unfold dirBothLive
  split
  · exact trExt_makeDirectory _ _ _
  · split
    · exact trExt_makeDirectory _ _ _
    · split
      · exact trExt_saveRecordOp _ _ _ _
      · split
        · exact trExt_saveRecordOp _ _ _ _
        · exact trExt_rfl _

theorem trExt_syncDirBranch (env : Env)
    (children : Side → Side → Path → Bool → SyncState → Res SyncResult)
    (hc : ∀ a' b' p' r' s', TrExt s' (stateOf (children a' b' p' r' s')))
    (a b : Side) (p : Path) (fr tr : FNRecord) (recursively : Bool) (s : SyncState) :
    TrExt s (syncDirBranch env children a b p fr tr recursively s).2 := by
  unfold syncDirBranch
  split
  · split
    · have h1 : TrExt s (emit (Op.childrenCall b p true) (makeDirectory a tr s)) :=
        trExt_trans (trExt_makeDirectory _ _ _) (trExt_emit _ _)
      split
      case _ heq =>
        refine trExt_trans h1 ?_
        have := hc b a p true (emit (Op.childrenCall b p true) (makeDirectory a tr s))
        rw [heq] at this
        simpa [stateOf] using this
      case _ heq =>
        refine trExt_trans h1 (trExt_trans ?_ (trExt_emit _ _))
        have := hc b a p true (emit (Op.childrenCall b p true) (makeDirectory a tr s))
        rw [heq] at this
        simpa [stateOf] using this
    · split
      · exact trExt_deleteEntry _ _ _ _
      · split
        · exact trExt_doDeleteIndexState _ _ _
        · exact trExt_rfl _
  · split
    · have h1 : TrExt s (emit (Op.childrenCall a p true) (makeDirectory b fr s)) :=
        trExt_trans (trExt_makeDirectory _ _ _) (trExt_emit _ _)
      split
      case _ heq =>
        refine trExt_trans h1 ?_
        have := hc a b p true (emit (Op.childrenCall a p true) (makeDirectory b fr s))
        rw [heq] at this
        simpa [stateOf] using this
      case _ heq =>
        refine trExt_trans h1 (trExt_trans ?_ (trExt_emit _ _))
        have := hc a b p true (emit (Op.childrenCall a p true) (makeDirectory b fr s))
        rw [heq] at this
        simpa [stateOf] using this
    · split
      · exact trExt_deleteEntry _ _ _ _
      · split
        · exact trExt_doDeleteIndexState _ _ _
        · exact trExt_rfl _
  · split
    · have h1 :
        TrExt s
          (emit (Op.childrenCall a p recursively) (dirBothLive a b p fr tr s).2) :=
        trExt_trans (trExt_dirBothLive _ _ _ _ _ _) (trExt_emit _ _)
      split
      case _ heq =>
        refine trExt_trans h1 ?_
        have := hc a b p recursively
          (emit (Op.childrenCall a p recursively) (dirBothLive a b p fr tr s).2)
        rw [heq] at this
        simpa [stateOf] using this
      case _ heq =>
        refine trExt_trans h1 (trExt_trans ?_ (trExt_emit _ _))
        have := hc a b p recursively
          (emit (Op.childrenCall a p recursively) (dirBothLive a b p fr tr s).2)
        rw [heq] at this
        simpa [stateOf] using this
    · exact trExt_dirBothLive _ _ _ _ _ _
  · exact trExt_rfl _

theorem trExt_synchronizeOne (env : Env)
    (children : Side → Side → Path → Bool → SyncState → Res SyncResult)
    (hc : ∀ a' b' p' r' s', TrExt s' (stateOf (children a' b' p' r' s')))
    (a b : Side) (dir : Path) (n : String) (recursively : Bool) (s : SyncState) :
    TrExt s (synchronizeOne env children a b dir n recursively s).2 := by
  unfold synchronizeOne
  refine trExt_trans (trExt_emit (Op.visited a n) s) ?_
  dsimp only
  split
  · exact trExt_emit _ _
  · split
    · exact trExt_emit _ _
    · split
      · exact trExt_emit _ _
      · split
        · exact trExt_rfl _
        · split
          · exact trExt_syncFileBranch _ _ _ _ _ _ _
          · exact trExt_syncDirBranch _ _ hc _ _ _ _ _ _ _

theorem trExt_processFrom (env : Env)
    (one : Side → Side → String → SyncState → SyncResult × SyncState)
    (h1 : ∀ a' b' n' s', TrExt s' (one a' b' n' s').2)
    (a b : Side) (ns ts : List String) (acc : SyncResult) (s : SyncState) :
    TrExt s (processFrom env one a b ns ts acc s).2 := by
  induction ns generalizing ts acc s with
  | nil => exact trExt_rfl _
  | cons n rest ih =>
    unfold processFrom
    split
    · exact ih _ _ _
    · exact trExt_trans (h1 a b n s) (ih _ _ _)

theorem trExt_processTo (env : Env)
    (one : Side → Side → String → SyncState → SyncResult × SyncState)
    (h1 : ∀ a' b' n' s', TrExt s' (one a' b' n' s').2)
    (a b : Side) (ns : List String) (acc : SyncResult) (s : SyncState) :
    TrExt s (processTo env one a b ns acc s).2 := by
  induction ns generalizing acc s with
  | nil => exact trExt_rfl _
  | cons n rest ih =>
    unfold processTo
    split
    · exact ih _ _
    · exact trExt_trans (h1 a b n s) (ih _ _)

theorem trExt_getFileNameIndex {sd : Side} {dir : Path} {s : SyncState} {r : Res NameIndex}
    (h : getFileNameIndex sd dir s = r) : TrExt s (stateOf r) := by
  unfold getFileNameIndex at h
  subst h
  dsimp only
  split
  · exact trExt_emit _ _
  · exact trExt_emit _ _

theorem trExt_synchronizeChildrenStep (env : Env)
    (one : Side → Side → String → SyncState → SyncResult × SyncState)
    (h1 : ∀ a' b' n' s', TrExt s' (one a' b' n' s').2)
    (a b : Side) (dir : Path) (s : SyncState) :
    TrExt s (stateOf (synchronizeChildrenStep env one a b dir s)) := by
  unfold synchronizeChildrenStep
  split
  · exact trExt_rfl _
  · split
    case _ heq => simpa [stateOf] using trExt_getFileNameIndex heq
    case _ fi s1 heq =>
      have hs1 : TrExt s s1 := by simpa [stateOf] using trExt_getFileNameIndex heq
      split
      case _ heq2 =>
        exact trExt_trans hs1 (by simpa [stateOf] using trExt_getFileNameIndex heq2)
      case _ ti s2 heq2 =>
        have hs2 : TrExt s1 s2 := by simpa [stateOf] using trExt_getFileNameIndex heq2
        refine trExt_trans hs1 (trExt_trans hs2 ?_)
        simp only [stateOf]
        exact trExt_trans (trExt_processFrom env one h1 a b _ _ _ s2)
          (trExt_processTo env one h1 b a _ _ _)

theorem trExt_syncChildren (env : Env) (fuel : Nat) (a b : Side) (dir : Path)
    (recursively : Bool) (s : SyncState) :
    TrExt s (stateOf (syncChildren env fuel a b dir recursively s)) := by
  induction fuel generalizing a b dir recursively s with
  | zero => exact trExt_rfl _
  | succ fuel ih =>
    unfold syncChildren
    exact trExt_synchronizeChildrenStep env _
      (fun a' b' n' s' => trExt_synchronizeOne env _ (fun a2 b2 p2 r2 s2 => ih a2 b2 p2 r2 s2)
        a' b' dir n' recursively s')
      a b dir s

/-! ## Visited-entry coverage for the final variant -/

theorem visited_mem_synchronizeOne (env : Env)
    (children : Side → Side → Path → Bool → SyncState → Res SyncResult)
    (hc : ∀ a' b' p' r' s', TrExt s' (stateOf (children a' b' p' r' s')))
    (a b : Side) (dir : Path) (n : String) (recursively : Bool) (s : SyncState) :
    Op.visited a n ∈ (synchronizeOne env children a b dir n recursively s).2.trace := by
  have h : TrExt (emit (Op.visited a n) s)
      (synchronizeOne env children a b dir n recursively s).2 := by
    unfold synchronizeOne
    dsimp only
    split
    · exact trExt_emit _ _
    · split
      · exact trExt_emit _ _
      · split
        · exact trExt_emit _ _
        · split
          · exact trExt_rfl _
          · split
            · exact trExt_syncFileBranch _ _ _ _ _ _ _
            · exact trExt_syncDirBranch _ _ hc _ _ _ _ _ _ _
  exact trExt_mem h (by simp)

theorem visited_mem_processFrom (env : Env)
    (one : Side → Side → String → SyncState → SyncResult × SyncState)
    (hone_mono : ∀ a' b' n' s', TrExt s' (one a' b' n' s').2)
    (hone_vis : ∀ a' b' n' s', Op.visited a' n' ∈ (one a' b' n' s').2.trace)
    (a b : Side) :
    ∀ (ns ts : List String) (acc : SyncResult) (s : SyncState) (n : String),
      n ∈ ns → env.excludeName n = false →
      Op.visited a n ∈ (processFrom env one a b ns ts acc s).2.trace := by
  intro ns
  induction ns with
  | nil => intro ts acc s n h; exact absurd h (by simp)
  | cons m rest ih =>
    intro ts acc s n hmem hexcl
    rcases List.mem_cons.mp hmem with heq | htail
    · subst heq
      unfold processFrom
      rw [if_neg (by simp [hexcl])]
      exact trExt_mem (trExt_processFrom env one hone_mono a b _ _ _ _) (hone_vis a b n s)
    · unfold processFrom
      split
      · exact ih _ _ _ _ htail hexcl
      · exact ih _ _ _ _ htail hexcl

theorem visited_mem_processTo (env : Env)
    (one : Side → Side → String → SyncState → SyncResult × SyncState)
    (hone_mono : ∀ a' b' n' s', TrExt s' (one a' b' n' s').2)
    (hone_vis : ∀ a' b' n' s', Op.visited a' n' ∈ (one a' b' n' s').2.trace)
    (a b : Side) :
    ∀ (ns : List String) (acc : SyncResult) (s : SyncState) (n : String),
      n ∈ ns → env.excludeName n = false →
      Op.visited a n ∈ (processTo env one a b ns acc s).2.trace := by
  intro ns
  induction ns with
  | nil => intro acc s n h; exact absurd h (by simp)
  | cons m rest ih =>
    intro acc s n hmem hexcl
    rcases List.mem_cons.mp hmem with heq | htail
    · subst heq
      unfold processTo
      rw [if_neg (by simp [hexcl])]
      exact trExt_mem (trExt_processTo env one hone_mono a b _ _ _) (hone_vis a b n s)
    · unfold processTo
      split
      · exact ih _ _ _ htail hexcl
      · exact ih _ _ _ htail hexcl

theorem mem_processFrom_remaining (env : Env)
    (one : Side → Side → String → SyncState → SyncResult × SyncState)
    (a b : Side) :
    ∀ (ns ts : List String) (acc : SyncResult) (s : SyncState) (n : String),
      n ∈ ts → n ∉ ns →
      n ∈ (processFrom env one a b ns ts acc s).1.2 := by
  intro ns
  induction ns with
  | nil => intro ts acc s n h _; simpa [processFrom] using h
  | cons m rest ih =>
    intro ts acc s n hts hns
    have hnm : n ≠ m := fun h => hns (h ▸ List.mem_cons_self m rest)
    have hrest : n ∉ rest := fun h => hns (List.mem_cons_of_mem m h)
    unfold processFrom
    split
    · exact ih _ _ _ _ hts hrest
    · exact ih _ _ _ _ ((List.mem_erase_of_ne hnm).mpr hts) hrest

theorem visited_mem_synchronizeChildrenStep (env : Env)
    (one : Side → Side → String → SyncState → SyncResult × SyncState)
    (hone_mono : ∀ a' b' n' s', TrExt s' (one a' b' n' s').2)
    (hone_vis : ∀ a' b' n' s', Op.visited a' n' ∈ (one a' b' n' s').2.trace)
    (a b : Side) (dir : Path) (s : SyncState)
    (hxp : env.excludePath dir = false)
    (hfa : dir ∉ (sideRep s a).faulty) (hfb : dir ∉ (sideRep s b).faulty)
    (n : String) (hexcl : env.excludeName n = false)
    (hmem : n ∈ getNames (idxOf s a dir) ∨ n ∈ getNames (idxOf s b dir)) :
    ∃ x, Op.visited x n ∈ (stateOf (synchronizeChildrenStep env one a b dir s)).trace := by
  have h1 : getFileNameIndex a dir s =
      Res.ok (idxOf s a dir) (emit (Op.getIndex a dir) s) := by
    unfold getFileNameIndex
    dsimp only
    rw [if_neg (by simpa using hfa), idxOf_emit]
  have h2 : getFileNameIndex b dir (emit (Op.getIndex a dir) s) =
      Res.ok (idxOf s b dir) (emit (Op.getIndex b dir) (emit (Op.getIndex a dir) s)) := by
    unfold getFileNameIndex
    dsimp only
    rw [if_neg (by simpa using hfb), idxOf_emit, idxOf_emit]
  unfold synchronizeChildrenStep
  rw [if_neg (by simp [hxp]), h1]
  dsimp only
  rw [h2]
  dsimp only [stateOf]
  rcases hmem with hmf | hmt
  · exact ⟨a, trExt_mem (trExt_processTo env one hone_mono b a _ _ _)
      (visited_mem_processFrom env one hone_mono hone_vis a b _ _ _ _ n hmf hexcl)⟩
  · by_cases hnf : n ∈ getNames (idxOf s a dir)
    · exact ⟨a, trExt_mem (trExt_processTo env one hone_mono b a _ _ _)
        (visited_mem_processFrom env one hone_mono hone_vis a b _ _ _ _ n hnf hexcl)⟩
    · exact ⟨b, visited_mem_processTo env one hone_mono hone_vis b a _ _ _ n
        (mem_processFrom_remaining env one a b _ _ _ _ n hmt hnf) hexcl⟩

/-! ## No-visit preservation for the final variant -/

theorem noVis_rfl (s : SyncState) : NoVis s s := fun _ _ h => h

theorem noVis_trans {s1 s2 s3 : SyncState} (h1 : NoVis s1 s2) (h2 : NoVis s2 s3) :
    NoVis s1 s3 := fun x m hm => h1 x m (h2 x m hm)

theorem noVisN_rfl (n : String) (s : SyncState) : NoVisN n s s := fun _ h => h

theorem noVisN_trans {n : String} {s1 s2 s3 : SyncState} (h1 : NoVisN n s1 s2)
    (h2 : NoVisN n s2 s3) : NoVisN n s1 s3 := fun x hm => h1 x (h2 x hm)

theorem noVisN_of_noVis {n : String} {s s' : SyncState} (h : NoVis s s') : NoVisN n s s' :=
  fun x hm => h x n hm

theorem noVis_of_append {s s' : SyncState} {t : List Op} (h : s'.trace = s.trace ++ t)
    (ht : ∀ x m, Op.visited x m ∉ t) : NoVis s s' := by
  intro x m hm
  rw [h] at hm
  rcases List.mem_append.mp hm with h1 | h1
  · exact h1
  · exact absurd h1 (ht x m)

theorem noVis_emit {op : Op} {s : SyncState} (h : ∀ x m, op ≠ Op.visited x m) :
    NoVis s (emit op s) := by
  refine noVis_of_append (emit_trace op s) ?_
  intro x m hm
  exact absurd (List.mem_singleton.mp hm).symm (h x m)

theorem noVis_saveRecordOp (sd : Side) (p : Path) (rec : FNRecord) (s : SyncState) :
    NoVis s (saveRecordOp sd p rec s) := by
  refine noVis_of_append (t := [Op.saveRecord sd p rec]) (by simp [saveRecordOp]) ?_
  intro x m
  simp

theorem noVis_deleteRecordOp (sd : Side) (p : Path) (s : SyncState) :
    NoVis s (deleteRecordOp sd p s) := by
  refine noVis_of_append (t := [Op.deleteRecord sd p]) (by simp [deleteRecordOp]) ?_
  intro x m
  simp

theorem noVis_doDeleteIndexState (sd : Side) (p : Path) (s : SyncState) :
    NoVis s (doDeleteIndexState sd p s) := by
  refine noVis_of_append (t := [Op.doDeleteIndex sd p]) (by simp) ?_
  intro x m
  simp

theorem noVis_backendPutDir (sd : Side) (p : Path) (s : SyncState) :
    NoVis s (backendPutDir sd p s) := by
  unfold backendPutDir
  dsimp only
  split
  · exact noVis_emit (by intro x m; simp)
  · refine noVis_of_append (t := [Op.putObject sd p]) (by simp) ?_
    intro x m
    simp

theorem noVis_makeDirectory (sd : Side) (rec : FNRecord) (s : SyncState) :
    NoVis s (makeDirectory sd rec s) :=
  noVis_trans (noVis_backendPutDir _ _ _) (noVis_saveRecordOp _ _ _ _)

theorem noVis_transferContent {a b : Side} {p : Path} {s : SyncState} {r : Res Unit}
    (h : transferContent a b p s = r) : NoVis s (stateOf r) := by
  unfold transferContent at h
  subst h
  dsimp only
  split
  · exact noVis_emit (by intro x m; simp)
  · split
    · exact noVis_emit (by intro x m; simp)
    · refine noVis_of_append (t := [Op.transfer a b p]) (by simp [stateOf]) ?_
      intro x m
      simp

theorem noVis_backendDeleteFile {sd : Side} {p : Path} {now : Nat} {s : SyncState}
    {r : Res Unit} (h : backendDeleteFile sd p now s = r) : NoVis s (stateOf r) := by
  unfold backendDeleteFile at h
  subst h
  dsimp only
  split
  · exact noVis_emit (by intro x m; simp)
  · refine noVis_of_append (t := [Op.deleteBackend sd p true]) (by simp [stateOf]) ?_
    intro x m
    simp

theorem noVis_backendDeleteDir {sd : Side} {p : Path} {now : Nat} {s : SyncState}
    {r : Res Unit} (h : backendDeleteDir sd p now s = r) : NoVis s (stateOf r) := by
  unfold backendDeleteDir at h
  subst h
  dsimp only
  split
  · refine noVis_of_append (t := [Op.deleteBackend sd p false]) (by simp [stateOf]) ?_
    intro x m
    simp
  · exact noVis_emit (by intro x m; simp)

theorem noVis_copyFile {a b : Side} {rec : FNRecord} {s : SyncState} {r : Res Unit}
    (h : copyFile a b rec s = r) : NoVis s (stateOf r) := by
  unfold copyFile at h
  subst h
  split
  case _ u s1 heq =>
    exact noVis_trans (by simpa [stateOf] using noVis_transferContent heq)
      (noVis_saveRecordOp _ _ _ _)
  case _ e s1 heq =>
    simpa [stateOf] using noVis_transferContent heq

theorem noVis_deleteEntry (env : Env) (sd : Side) (rec : FNRecord) (s : SyncState) :
    NoVis s (deleteEntry env sd rec s) := by
  unfold deleteEntry
  split
  · split
    case _ heq => simpa [stateOf] using noVis_backendDeleteFile heq
    case _ heq => simpa [stateOf] using noVis_backendDeleteFile heq
  · split
    case _ heq => simpa [stateOf] using noVis_backendDeleteDir heq
    case _ heq => simpa [stateOf] using noVis_backendDeleteDir heq

theorem noVis_absorbErr (e : Err) (r : SyncResult) (p : Path) (s : SyncState) :
    NoVis s (absorbErr e r p s).2 := noVis_emit (by intro x m; simp [absorbErr])

theorem noVis_getFileNameIndex {sd : Side} {dir : Path} {s : SyncState}
    {r : Res NameIndex} (h : getFileNameIndex sd dir s = r) : NoVis s (stateOf r) := by
  unfold getFileNameIndex at h
  subst h
  dsimp only
  split
  · exact noVis_emit (by intro x m; simp)
  · exact noVis_emit (by intro x m; simp)

theorem noVis_syncFileBranch (env : Env) (a b : Side) (p : Path) (fr tr : FNRecord)
    (s : SyncState) : NoVis s (syncFileBranch env a b p fr tr s).2 := by
  unfold syncFileBranch
  split
  · split
    · split
      case _ heq => simpa [stateOf] using noVis_copyFile heq
      case _ heq =>
        exact noVis_trans (by simpa [stateOf] using noVis_copyFile heq)
          (noVis_deleteRecordOp _ _ _)
      case _ heq =>
        exact noVis_trans (by simpa [stateOf] using noVis_copyFile heq)
          (noVis_emit (by intro x m; simp))
    · split
      · exact noVis_deleteEntry _ _ _ _
      · split
        · exact noVis_doDeleteIndexState _ _ _
        · exact noVis_rfl _
  · split
    · split
      case _ heq => simpa [stateOf] using noVis_copyFile heq
      case _ heq =>
        exact noVis_trans (by simpa [stateOf] using noVis_copyFile heq)
          (noVis_deleteRecordOp _ _ _)
      case _ heq =>
        exact noVis_trans (by simpa [stateOf] using noVis_copyFile heq)
          (noVis_emit (by intro x m; simp))
    · split
      · exact noVis_deleteEntry _ _ _ _
      · split
        · exact noVis_doDeleteIndexState _ _ _
        · exact noVis_rfl _
  · split
    · split
      case _ heq => simpa [stateOf] using noVis_copyFile heq
      case _ heq =>
        refine noVis_trans (by simpa [stateOf] using noVis_copyFile heq) ?_
        split
        case _ heq2 => simpa [stateOf] using noVis_copyFile heq2
        case _ heq2 =>
          exact noVis_trans (by simpa [stateOf] using noVis_copyFile heq2)
            (noVis_trans (noVis_deleteEntry _ _ _ _) (noVis_deleteEntry _ _ _ _))
        case _ heq2 =>
          exact noVis_trans (by simpa [stateOf] using noVis_copyFile heq2)
            (noVis_emit (by intro x m; simp))
      case _ heq =>
        exact noVis_trans (by simpa [stateOf] using noVis_copyFile heq)
          (noVis_emit (by intro x m; simp))
    · split
      · split
        case _ heq => simpa [stateOf] using noVis_copyFile heq
        case _ heq =>
          refine noVis_trans (by simpa [stateOf] using noVis_copyFile heq) ?_
          split
          case _ heq2 => simpa [stateOf] using noVis_copyFile heq2
          case _ heq2 =>
            exact noVis_trans (by simpa [stateOf] using noVis_copyFile heq2)
              (noVis_trans (noVis_deleteEntry _ _ _ _) (noVis_deleteEntry _ _ _ _))
          case _ heq2 =>
            exact noVis_trans (by simpa [stateOf] using noVis_copyFile heq2)
              (noVis_emit (by intro x m; simp))
        case _ heq =>
          exact noVis_trans (by simpa [stateOf] using noVis_copyFile heq)
            (noVis_emit (by intro x m; simp))
      · exact noVis_rfl _
  · exact noVis_rfl _

theorem noVis_dirBothLive (a b : Side) (p : Path) (fr tr : FNRecord) (s : SyncState) :
    NoVis s (dirBothLive a b p fr tr s).2 := by
  unfold dirBothLive
  split
  · exact noVis_makeDirectory _ _ _
  · split
    · exact noVis_makeDirectory _ _ _
    · split
      · exact noVis_saveRecordOp _ _ _ _
      · split
        · exact noVis_saveRecordOp _ _ _ _
        · exact noVis_rfl _

theorem noVisN_syncDirBranch (env : Env)
    (children : Side → Side → Path → Bool → SyncState → Res SyncResult) (n : String)
    (hc : ∀ a' b' p' r' s', NoVisN n s' (stateOf (children a' b' p' r' s')))
    (a b : Side) (p : Path) (fr tr : FNRecord) (recursively : Bool) (s : SyncState) :
    NoVisN n s (syncDirBranch env children a b p fr tr recursively s).2 := by
  unfold syncDirBranch
  split
  · split
    · have h1 : NoVisN n s (emit (Op.childrenCall b p true) (makeDirectory a tr s)) :=
        noVisN_of_noVis
          (noVis_trans (noVis_makeDirectory _ _ _) (noVis_emit (by intro x m; simp)))
      split
      case _ heq =>
        refine noVisN_trans h1 ?_
        have := hc b a p true (emit (Op.childrenCall b p true) (makeDirectory a tr s))
        rw [heq] at this
        simpa [stateOf] using this
      case _ heq =>
        refine noVisN_trans h1
          (noVisN_trans ?_ (noVisN_of_noVis (noVis_emit (by intro x m; simp [absorbErr]))))
        have := hc b a p true (emit (Op.childrenCall b p true) (makeDirectory a tr s))
        rw [heq] at this
        simpa [stateOf] using this
    · split
      · exact noVisN_of_noVis (noVis_deleteEntry _ _ _ _)
      · split
        · exact noVisN_of_noVis (noVis_doDeleteIndexState _ _ _)
        · exact noVisN_rfl _ _
  · split
    · have h1 : NoVisN n s (emit (Op.childrenCall a p true) (makeDirectory b fr s)) :=
        noVisN_of_noVis
          (noVis_trans (noVis_makeDirectory _ _ _) (noVis_emit (by intro x m; simp)))
      split
      case _ heq =>
        refine noVisN_trans h1 ?_
        have := hc a b p true (emit (Op.childrenCall a p true) (makeDirectory b fr s))
        rw [heq] at this
        simpa [stateOf] using this
      case _ heq =>
        refine noVisN_trans h1
          (noVisN_trans ?_ (noVisN_of_noVis (noVis_emit (by intro x m; simp [absorbErr]))))
        have := hc a b p true (emit (Op.childrenCall a p true) (makeDirectory b fr s))
        rw [heq] at this
        simpa [stateOf] using this
    · split
      · exact noVisN_of_noVis (noVis_deleteEntry _ _ _ _)
      · split
        · exact noVisN_of_noVis (noVis_doDeleteIndexState _ _ _)
        · exact noVisN_rfl _ _
  · split
    · have h1 : NoVisN n s
          (emit (Op.childrenCall a p recursively) (dirBothLive a b p fr tr s).2) :=
        noVisN_of_noVis
          (noVis_trans (noVis_dirBothLive _ _ _ _ _ _) (noVis_emit (by intro x m; simp)))
      split
      case _ heq =>
        refine noVisN_trans h1 ?_
        have := hc a b p recursively
          (emit (Op.childrenCall a p recursively) (dirBothLive a b p fr tr s).2)
        rw [heq] at this
        simpa [stateOf] using this
      case _ heq =>
        refine noVisN_trans h1
          (noVisN_trans ?_ (noVisN_of_noVis (noVis_emit (by intro x m; simp [absorbErr]))))
        have := hc a b p recursively
          (emit (Op.childrenCall a p recursively) (dirBothLive a b p fr tr s).2)
        rw [heq] at this
        simpa [stateOf] using this
    · exact noVisN_of_noVis (noVis_dirBothLive _ _ _ _ _ _)
  · exact noVisN_rfl _ _

theorem noVisN_synchronizeOne (env : Env)
    (children : Side → Side → Path → Bool → SyncState → Res SyncResult) (n : String)
    (hc : ∀ a' b' p' r' s', NoVisN n s' (stateOf (children a' b' p' r' s')))
    (a b : Side) (dir : Path) (m : String) (hmn : m ≠ n) (recursively : Bool)
    (s : SyncState) :
    NoVisN n s (synchronizeOne env children a b dir m recursively s).2 := by
  have base : NoVisN n s (emit (Op.visited a m) s) := by
    intro x hm
    rw [emit_trace] at hm
    rcases List.mem_append.mp hm with h1 | h1
    · exact h1
    · simp at h1
      exact absurd h1.2.symm hmn
  unfold synchronizeOne
  refine noVisN_trans base ?_
  dsimp only
  split
  · exact noVisN_of_noVis (noVis_emit (by intro x m'; simp))
  · split
    · exact noVisN_of_noVis (noVis_emit (by intro x m'; simp))
    · split
      · exact noVisN_of_noVis (noVis_emit (by intro x m'; simp))
      · split
        · exact noVisN_rfl _ _
        · split
          · exact noVisN_of_noVis (noVis_syncFileBranch _ _ _ _ _ _ _)
          · exact noVisN_syncDirBranch _ _ n hc _ _ _ _ _ _ _

theorem noVisN_processFrom (env : Env)
    (one : Side → Side → String → SyncState → SyncResult × SyncState) (n : String)
    (hone : ∀ a' b' m' s', env.excludeName m' = false → NoVisN n s' (one a' b' m' s').2)
    (a b : Side) :
    ∀ (ns ts : List String) (acc : SyncResult) (s : SyncState),
      NoVisN n s (processFrom env one a b ns ts acc s).2 := by
  intro ns
  induction ns with
  | nil => intro ts acc s; exact noVisN_rfl _ _
  | cons m rest ih =>
    intro ts acc s
    unfold processFrom
    split
    case _ => exact ih _ _ _
    case _ h =>
      exact noVisN_trans (hone a b m s (by simpa using h)) (ih _ _ _)

theorem noVisN_processTo (env : Env)
    (one : Side → Side → String → SyncState → SyncResult × SyncState) (n : String)
    (hone : ∀ a' b' m' s', env.excludeName m' = false → NoVisN n s' (one a' b' m' s').2)
    (a b : Side) :
    ∀ (ns : List String) (acc : SyncResult) (s : SyncState),
      NoVisN n s (processTo env one a b ns acc s).2 := by
  intro ns
  induction ns with
  | nil => intro acc s; exact noVisN_rfl _ _
  | cons m rest ih =>
    intro acc s
    unfold processTo
    split
    case _ => exact ih _ _
    case _ h =>
      exact noVisN_trans (hone a b m s (by simpa using h)) (ih _ _)

theorem noVisN_synchronizeChildrenStep (env : Env)
    (one : Side → Side → String → SyncState → SyncResult × SyncState) (n : String)
    (hone : ∀ a' b' m' s', env.excludeName m' = false → NoVisN n s' (one a' b' m' s').2)
    (a b : Side) (dir : Path) (s : SyncState) :
    NoVisN n s (stateOf (synchronizeChildrenStep env one a b dir s)) := by
  unfold synchronizeChildrenStep
  split
  · exact noVisN_rfl _ _
  · split
    case _ heq => exact noVisN_of_noVis (noVis_getFileNameIndex heq)
    case _ fi s1 heq =>
      have hs1 : NoVisN n s s1 := by
        simpa [stateOf] using noVisN_of_noVis (n := n) (noVis_getFileNameIndex heq)
      split
      case _ heq2 =>
        refine noVisN_trans hs1 ?_
        simpa [stateOf] using noVisN_of_noVis (n := n) (noVis_getFileNameIndex heq2)
      case _ ti s2 heq2 =>
        have hs2 : NoVisN n s1 s2 := by
          simpa [stateOf] using noVisN_of_noVis (n := n) (noVis_getFileNameIndex heq2)
        refine noVisN_trans hs1 (noVisN_trans hs2 ?_)
        simp only [stateOf]
        exact noVisN_trans (noVisN_processFrom env one n hone a b _ _ _ s2)
          (noVisN_processTo env one n hone b a _ _ _)

theorem noVisN_syncChildren (env : Env) (n : String) (hn : env.excludeName n = true)
    (fuel : Nat) :
    ∀ (a b : Side) (dir : Path) (recursively : Bool) (s : SyncState),
      NoVisN n s (stateOf (syncChildren env fuel a b dir recursively s)) := by
  induction fuel with
  | zero => intro a b dir recursively s; exact noVisN_rfl _ _
  | succ fuel ih =>
    intro a b dir recursively s
    unfold syncChildren
    refine noVisN_synchronizeChildrenStep env _ n ?_ a b dir s
    intro a' b' m' s' hm'
    have hmn : m' ≠ n := by
      intro he
      rw [he, hn] at hm'
      exact absurd hm' (by simp)
    exact noVisN_synchronizeOne env _ n
      (fun a2 b2 p2 r2 s2 => ih a2 b2 p2 r2 s2) a' b' dir m' hmn recursively s'

theorem processFrom_all_excluded (env : Env)
    (one : Side → Side → String → SyncState → SyncResult × SyncState) (a b : Side) :
    ∀ (ns ts : List String) (acc : SyncResult) (s : SyncState),
      (∀ m ∈ ns, env.excludeName m = true) →
      processFrom env one a b ns ts acc s = ((acc, ts), s) := by
  intro ns
  induction ns with
  | nil => intro ts acc s _; rfl
  | cons m rest ih =>
    intro ts acc s h
    unfold processFrom
    rw [if_pos (h m (List.mem_cons_self m rest))]
    exact ih _ _ _ (fun m' hm' => h m' (List.mem_cons_of_mem m hm'))

theorem processTo_all_excluded (env : Env)
    (one : Side → Side → String → SyncState → SyncResult × SyncState) (a b : Side) :
    ∀ (ns : List String) (acc : SyncResult) (s : SyncState),
      (∀ m ∈ ns, env.excludeName m = true) →
      processTo env one a b ns acc s = (acc, s) := by
  intro ns
  induction ns with
  | nil => intro acc s _; rfl
  | cons m rest ih =>
    intro acc s h
    unfold processTo
    rw [if_pos (h m (List.mem_cons_self m rest))]
    exact ih _ _ (fun m' hm' => h m' (List.mem_cons_of_mem m hm'))

/-! ## Trace monotonicity for the middle variant -/

theorem trExt_of_traceEq {s s' : SyncState} (h : s'.trace = s.trace) : TrExt s s' :=
  ⟨[], by simp [h]⟩

@[simp]
theorem trace_v2SetIdx (s : SyncState) (sd : Side) (dir : Path) (n : String)
    (rec : FNRecord) : (v2SetIdx s sd dir n rec).trace = s.trace := by
  simp [v2SetIdx]

@[simp]
theorem trace_v2DelIdx (s : SyncState) (sd : Side) (dir : Path) (n : String) :
    (v2DelIdx s sd dir n).trace = s.trace := by
  simp [v2DelIdx]

theorem trExt_backendRawDelete {sd : Side} {p : Path} {isFile : Bool} {s : SyncState}
    {r : Res Unit} (h : backendRawDelete sd p isFile s = r) : TrExt s (stateOf r) := by
  unfold backendRawDelete at h
  subst h
  dsimp only
  split
  · split
    · exact trExt_emit _ _
    · exact ⟨[Op.deleteBackend sd p isFile], by simp [stateOf]⟩
  · split
    · exact ⟨[Op.deleteBackend sd p isFile], by simp [stateOf]⟩
    · exact trExt_emit _ _

theorem trExt_v2DeleteEntry (sd : Side) (p : Path) (isFile : Bool) (s : SyncState) :
    TrExt s (v2DeleteEntry sd p isFile s) := by
  unfold v2DeleteEntry
  split
  case _ heq => simpa [stateOf] using trExt_backendRawDelete heq
  case _ heq => simpa [stateOf] using trExt_backendRawDelete heq

theorem trExt_v2FileBranch (env : Env) (a b : Side) (dir : Path) (n : String) (p : Path)
    (fr tr : FNRecord) (s : SyncState) :
    TrExt s (v2FileBranch env a b dir n p fr tr s).2 := by
  unfold v2FileBranch v2CopyFile
  dsimp only
  split
  · split
    · split
      case _ heq =>
        exact trExt_trans (by simpa [stateOf] using trExt_transferContent heq)
          (trExt_of_traceEq (by simp))
      case _ heq =>
        refine trExt_trans (by simpa [stateOf] using trExt_transferContent heq) ?_
        split <;> exact trExt_of_traceEq (by simp)
      case _ heq =>
        exact trExt_trans (by simpa [stateOf] using trExt_transferContent heq) (trExt_emit _ _)
    · have hmid : TrExt s (if tr.modified ≠ 0 then v2DeleteEntry b p true s else s) := by
        split
        · exact trExt_v2DeleteEntry _ _ _ _
        · exact trExt_rfl _
      split
      · exact trExt_trans hmid (trExt_of_traceEq (by simp))
      · exact hmid
  · split
    · split
      case _ heq =>
        exact trExt_trans (by simpa [stateOf] using trExt_transferContent heq)
          (trExt_of_traceEq (by simp))
      case _ heq =>
        refine trExt_trans (by simpa [stateOf] using trExt_transferContent heq) ?_
        split <;> exact trExt_of_traceEq (by simp)
      case _ heq =>
        exact trExt_trans (by simpa [stateOf] using trExt_transferContent heq) (trExt_emit _ _)
    · have hmid : TrExt s (if fr.modified ≠ 0 then v2DeleteEntry a p true s else s) := by
        split
        · exact trExt_v2DeleteEntry _ _ _ _
        · exact trExt_rfl _
      split
      · exact trExt_trans hmid (trExt_of_traceEq (by simp))
      · exact hmid
  · split
    · refine trExt_of_traceEq ?_
      simp only [trace_v2DelIdx]
      split
      · simp
      · split <;> first | rfl | simp
    · refine trExt_of_traceEq ?_
      simp only [trace_v2DelIdx]
      split
      · simp
      · split <;> first | rfl | simp
  · split
    · split
      case _ heq =>
        exact trExt_trans (by simpa [stateOf] using trExt_transferContent heq)
          (trExt_of_traceEq (by simp))
      case _ heq =>
        refine trExt_trans (by simpa [stateOf] using trExt_transferContent heq) ?_
        split <;> exact trExt_of_traceEq (by simp)
      case _ heq =>
        exact trExt_trans (by simpa [stateOf] using trExt_transferContent heq) (trExt_emit _ _)
    · split
      · split
        case _ heq =>
          exact trExt_trans (by simpa [stateOf] using trExt_transferContent heq)
            (trExt_of_traceEq (by simp))
        case _ heq =>
          refine trExt_trans (by simpa [stateOf] using trExt_transferContent heq) ?_
          split <;> exact trExt_of_traceEq (by simp)
        case _ heq =>
          exact trExt_trans (by simpa [stateOf] using trExt_transferContent heq)
            (trExt_emit _ _)
      · exact trExt_rfl _

theorem trExt_v2DirBranch (env : Env)
    (children : Side → Side → Path → Option Nat → SyncState → V2Result × SyncState)
    (hc : ∀ x y q c s', TrExt s' (children x y q c s').2)
    (a b : Side) (dir : Path) (n : String) (p : Path) (fr tr : FNRecord)
    (count : Option Nat) (s : SyncState) :
    TrExt s (v2DirBranch env children a b dir n p fr tr count s).2 := by
  unfold v2DirBranch
  dsimp only
  split
  · split
    · refine trExt_trans (trExt_backendPutDir a p s) ?_
      refine trExt_trans (trExt_emit (Op.childrenCallN b p none) (backendPutDir a p s)) ?_
      exact trExt_trans (hc b a p none _) (trExt_of_traceEq (by simp))
    · have hmid :
        TrExt s
          (if tr.modified ≠ 0 then
            v2DeleteEntry b p false
              (children a b p none (emit (Op.childrenCallN a p none) s)).2
          else s) := by
        split
        · exact trExt_trans (trExt_emit (Op.childrenCallN a p none) s)
            (trExt_trans (hc a b p none _) (trExt_v2DeleteEntry _ _ _ _))
        · exact trExt_rfl _
      split
      · exact trExt_trans hmid (trExt_of_traceEq (by simp))
      · exact hmid
  · split
    · refine trExt_trans (trExt_backendPutDir b p s) ?_
      refine trExt_trans (trExt_emit (Op.childrenCallN a p none) (backendPutDir b p s)) ?_
      exact trExt_trans (hc a b p none _) (trExt_of_traceEq (by simp))
    · have hmid :
        TrExt s
          (if fr.modified ≠ 0 then
            v2DeleteEntry a p false
              (children a b p none (emit (Op.childrenCallN a p none) s)).2
          else s) := by
        split
        · exact trExt_trans (trExt_emit (Op.childrenCallN a p none) s)
            (trExt_trans (hc a b p none _) (trExt_v2DeleteEntry _ _ _ _))
        · exact trExt_rfl _
      split
      · exact trExt_trans hmid (trExt_of_traceEq (by simp))
      · exact hmid
  · split
    · refine trExt_of_traceEq ?_
      simp only [trace_v2DelIdx]
      split
      · simp
      · split <;> first | rfl | simp
    · refine trExt_of_traceEq ?_
      simp only [trace_v2DelIdx]
      split
      · simp
      · split <;> first | rfl | simp
  · have hstep :
      TrExt s
        (if tr.modified < fr.modified then
          (setResult a true V2_FALSES, v2SetIdx s b dir n fr)
        else if fr.modified < tr.modified then
          (setResult a false V2_FALSES, v2SetIdx s a dir n tr)
        else (V2_FALSES, s)).2 := by
      split
      · exact trExt_of_traceEq (by simp)
      · split
        · exact trExt_of_traceEq (by simp)
        · exact trExt_rfl _
    have hstep2 :
      TrExt s
        (if tr.modified = 0 then
          (setResult a true
            (if tr.modified < fr.modified then
              (setResult a true V2_FALSES, v2SetIdx s b dir n fr)
            else if fr.modified < tr.modified then
              (setResult a false V2_FALSES, v2SetIdx s a dir n tr)
            else (V2_FALSES, s)).1,
            backendPutDir b p
              (if tr.modified < fr.modified then
                (setResult a true V2_FALSES, v2SetIdx s b dir n fr)
              else if fr.modified < tr.modified then
                (setResult a false V2_FALSES, v2SetIdx s a dir n tr)
              else (V2_FALSES, s)).2)
        else if fr.modified = 0 then
          (setResult a false
            (if tr.modified < fr.modified then
              (setResult a true V2_FALSES, v2SetIdx s b dir n fr)
            else if fr.modified < tr.modified then
              (setResult a false V2_FALSES, v2SetIdx s a dir n tr)
            else (V2_FALSES, s)).1,
            backendPutDir a p
              (if tr.modified < fr.modified then
                (setResult a true V2_FALSES, v2SetIdx s b dir n fr)
              else if fr.modified < tr.modified then
                (setResult a false V2_FALSES, v2SetIdx s a dir n tr)
              else (V2_FALSES, s)).2)
        else
          (if tr.modified < fr.modified then
            (setResult a true V2_FALSES, v2SetIdx s b dir n fr)
          else if fr.modified < tr.modified then
            (setResult a false V2_FALSES, v2SetIdx s a dir n tr)
          else (V2_FALSES, s))).2 := by
      split
      · exact trExt_trans hstep (trExt_backendPutDir _ _ _)
      · split
        · exact trExt_trans hstep (trExt_backendPutDir _ _ _)
        · exact hstep
    split
    · exact trExt_trans hstep2 (trExt_trans (trExt_emit _ _) (hc a b p (v2CountDec count) _))
    · exact hstep2

theorem trExt_v2SynchronizeOne (env : Env)
    (children : Side → Side → Path → Option Nat → SyncState → V2Result × SyncState)
    (hc : ∀ x y q c s', TrExt s' (children x y q c s').2)
    (a b : Side) (dir : Path) (n : String) (count : Option Nat) (s : SyncState) :
    TrExt s (v2SynchronizeOne env children a b dir n count s).2 := by
  unfold v2SynchronizeOne
  refine trExt_trans (trExt_emit (Op.visited a n) s) ?_
  dsimp only
  split
  · exact trExt_emit _ _
  · split
    · exact trExt_emit _ _
    · split
      · exact trExt_emit _ _
      · split
        · exact trExt_v2FileBranch _ _ _ _ _ _ _ _ _
        · exact trExt_v2DirBranch _ _ hc _ _ _ _ _ _ _ _ _

theorem trExt_v2ProcessFrom
    (one : Side → Side → String → SyncState → V2Result × SyncState)
    (h1 : ∀ x y n' s', TrExt s' (one x y n' s').2)
    (a b : Side) (ns ts : List String) (acc : V2Result) (s : SyncState) :
    TrExt s (v2ProcessFrom one a b ns ts acc s).2 := by
  induction ns generalizing ts acc s with
  | nil => exact trExt_rfl _
  | cons n rest ih => exact trExt_trans (h1 a b n s) (ih _ _ _)

theorem trExt_v2ProcessTo
    (one : Side → Side → String → SyncState → V2Result × SyncState)
    (h1 : ∀ x y n' s', TrExt s' (one x y n' s').2)
    (a b : Side) (ns : List String) (acc : V2Result) (s : SyncState) :
    TrExt s (v2ProcessTo one a b ns acc s).2 := by
  induction ns generalizing acc s with
  | nil => exact trExt_rfl _
  | cons n rest ih => exact trExt_trans (h1 a b n s) (ih _ _)

theorem trExt_v2SyncChildrenStep (env : Env)
    (one : Side → Side → String → SyncState → V2Result × SyncState)
    (h1 : ∀ x y n' s', TrExt s' (one x y n' s').2)
    (a b : Side) (dir : Path) (s : SyncState) :
    TrExt s (v2SyncChildrenStep env one a b dir s).2 := by
  unfold v2SyncChildrenStep
  split
  case _ heq =>
    exact trExt_trans (by simpa [stateOf] using trExt_getFileNameIndex heq) (trExt_emit _ _)
  case _ fi s1 heq =>
    have hs1 : TrExt s s1 := by simpa [stateOf] using trExt_getFileNameIndex heq
    split
    case _ heq2 =>
      exact trExt_trans hs1
        (trExt_trans (by simpa [stateOf] using trExt_getFileNameIndex heq2) (trExt_emit _ _))
    case _ ti s2 heq2 =>
      have hs2 : TrExt s1 s2 := by simpa [stateOf] using trExt_getFileNameIndex heq2
      refine trExt_trans hs1 (trExt_trans hs2 ?_)
      dsimp only
      rcases hq1 :
        v2ProcessFrom one a b
          (List.filter (fun k => ¬ env.excludeName k) (List.map (fun q => q.1) fi))
          (List.filter (fun k => ¬ env.excludeName k) (List.map (fun q => q.1) ti))
          V2_FALSES s2 with ⟨⟨r1, rem1⟩, s3⟩
      have h3 := trExt_v2ProcessFrom one h1 a b
        (List.filter (fun k => ¬ env.excludeName k) (List.map (fun q => q.1) fi))
        (List.filter (fun k => ¬ env.excludeName k) (List.map (fun q => q.1) ti))
        V2_FALSES s2
      rw [hq1] at h3
      rcases hq2 : v2ProcessTo one b a rem1 r1 s3 with ⟨r2, s4⟩
      have h4 := trExt_v2ProcessTo one h1 b a rem1 r1 s3
      rw [hq2] at h4
      rw [hq1]
      dsimp only
      rw [hq2]
      dsimp only
      have hmid : TrExt s4 (if r2.backward = true then emit (Op.persistIndex a dir) s4 else s4) := by
        split
        · exact trExt_emit _ _
        · exact trExt_rfl _
      refine trExt_trans (by simpa using h3) (trExt_trans (by simpa using h4) ?_)
      split
      · exact trExt_trans hmid (trExt_emit _ _)
      · exact hmid

theorem trExt_v2SyncChildren (env : Env) (fuel : Nat) (a b : Side) (dir : Path)
    (count : Option Nat) (s : SyncState) :
    TrExt s (v2SyncChildren env fuel a b dir count s).2 := by
  induction fuel generalizing a b dir count s with
  | zero => exact trExt_rfl _
  | succ fuel ih =>
    unfold v2SyncChildren
    exact trExt_v2SyncChildrenStep env _
      (fun x y n' s' =>
        trExt_v2SynchronizeOne env (v2SyncChildren env fuel)
          (fun x2 y2 q2 c2 s2 => ih x2 y2 q2 c2 s2) x y dir n' count s')
      a b dir s

/-! ## Projection lemmas for single operations -/

@[simp]
theorem alGet_alSet_self {α β : Type} [DecidableEq α] (l : List (α × β)) (k : α) (v : β) :
    alGet (alSet l k v) k = some v := by
  induction l with
  | nil => simp [alSet, alGet]
  | cons q rest ih =>
    by_cases h : q.1 = k
    · simp [alSet, alGet, h]
    · simp [alSet, alGet, h, ih]

@[simp]
theorem alGet_alSet_ne {α β : Type} [DecidableEq α] (l : List (α × β)) (k k' : α) (v : β)
    (h : k' ≠ k) : alGet (alSet l k v) k' = alGet l k' := by
  induction l with
  | nil => simp [alSet, alGet, h, Ne.symm h]
  | cons q rest ih =>
    by_cases hq : q.1 = k
    · simp [alSet, alGet, hq, Ne.symm h, h]
    · simp [alSet, alGet, hq, ih]

@[simp]
theorem sideRep_setSideRep_same (s : SyncState) (sd : Side) (r : Replica) :
    sideRep (setSideRep s sd r) sd = r := by
  cases sd <;> rfl

theorem sideRep_setSideRep_other (s : SyncState) (sd x : Side) (r : Replica) (h : x ≠ sd) :
    sideRep (setSideRep s sd r) x = sideRep s x := by
  cases sd <;> cases x <;> first | rfl | exact absurd rfl h

@[simp]
theorem trace_backendPutDir (sd : Side) (p : Path) (s : SyncState) :
    (backendPutDir sd p s).trace = s.trace ++ [Op.putObject sd p] := by
  unfold backendPutDir
  dsimp only
  split <;> simp

@[simp]
theorem trace_saveRecordOp (sd : Side) (p : Path) (rec : FNRecord) (s : SyncState) :
    (saveRecordOp sd p rec s).trace = s.trace ++ [Op.saveRecord sd p rec] := by
  simp [saveRecordOp]

@[simp]
theorem trace_makeDirectory (sd : Side) (rec : FNRecord) (s : SyncState) :
    (makeDirectory sd rec s).trace =
      s.trace ++ [Op.putObject sd rec.fullPath,
        Op.saveRecord sd rec.fullPath (dirSavedRecord rec.modified)] := by
  simp [makeDirectory]

@[simp]
theorem contents_saveRecordState (s : SyncState) (sd : Side) (p : Path) (rec : FNRecord)
    (x : Side) :
    (sideRep (saveRecordState s sd p rec) x).contents = (sideRep s x).contents := by
  cases sd <;> cases x <;> rfl

@[simp]
theorem contents_saveRecordOp (sd : Side) (p : Path) (rec : FNRecord) (s : SyncState)
    (x : Side) :
    (sideRep (saveRecordOp sd p rec s) x).contents = (sideRep s x).contents := by
  simp [saveRecordOp]

/-- After `saveRecord(fullPath, rec)`, the record stored for the path's
name in its parent's index is `rec`. -/
theorem lookupRecord_saveRecordOp_self (sd : Side) (p : Path) (rec : FNRecord)
    (s : SyncState) :
    lookupRecord (saveRecordOp sd p rec s) sd (parentPath p) (baseName p) = some rec := by
  simp [saveRecordOp, saveRecordState, lookupRecord, idxOf]

theorem trace_backendDeleteDir {sd : Side} {p : Path} {now : Nat} {s : SyncState}
    {r : Res Unit} (h : backendDeleteDir sd p now s = r) :
    (stateOf r).trace = s.trace ++ [Op.deleteBackend sd p false] := by
  unfold backendDeleteDir at h
  subst h
  dsimp only
  split <;> simp [stateOf]

/-- For a directory record, `deleteEntry` of the final variant issues
exactly one `deleteRecursively` call. -/
theorem trace_deleteEntry_dir (env : Env) (sd : Side) (rec : FNRecord) (s : SyncState)
    (h : rec.size = none) :
    (deleteEntry env sd rec s).trace = s.trace ++ [Op.deleteBackend sd rec.fullPath false] := by
  unfold deleteEntry
  rw [if_neg (by simp [h])]
  split
  case _ heq => simpa [stateOf] using trace_backendDeleteDir heq
  case _ heq => simpa [stateOf] using trace_backendDeleteDir heq

theorem trace_backendRawDelete {sd : Side} {p : Path} {isFile : Bool} {s : SyncState}
    {r : Res Unit} (h : backendRawDelete sd p isFile s = r) :
    (stateOf r).trace = s.trace ++ [Op.deleteBackend sd p isFile] := by
  unfold backendRawDelete at h
  subst h
  dsimp only
  split
  · split <;> simp [stateOf]
  · split <;> simp [stateOf]

/-- The middle variant's `deleteEntry` issues exactly one raw `doDelete`
call. -/
theorem trace_v2DeleteEntry_dir (sd : Side) (p : Path) (s : SyncState) :
    (v2DeleteEntry sd p false s).trace = s.trace ++ [Op.deleteBackend sd p false] := by
  unfold v2DeleteEntry
  split
  case _ heq => simpa [stateOf] using trace_backendRawDelete heq
  case _ heq => simpa [stateOf] using trace_backendRawDelete heq

/-- C5 (amended): directory-deletion propagation differs between the two
variants.  In the final variant (`part_002`), when `synchronizeOne`
propagates a directory deletion to a side with real content
(`modified ≠ 0`), it issues a single recursive backend delete
(`deleteRecursively`) with no prior synchronization of the directory's
children — the whole reconciliation trace is the visit marker followed
immediately by the physical delete, whatever the caller's recursion
flag.  In the middle variant (`Synchronizer.ts` lines 919-937), the same
situation first forces a `synchronizeChildren` pass with the unbounded
`Number.MAX_VALUE` budget and only then deletes the directory, whatever
the caller's recursion budget. -/
theorem C5_forced_drain_only_in_middle_variant (env : Env) (fuel : Nat) (a b : Side)
    (dir : Path) (n : String) (recursively : Bool) (count : Option Nat) (s : SyncState)
    (fr tr : FNRecord) (d : Nat)
    (hres : resolveRecords (lookupRecord s a dir n) (lookupRecord s b dir n) = some (fr, tr))
    (hd : fr.deleted = some d) (htd : tr.deleted = none)
    (hsa : fr.size = none) (hsb : tr.size = none)
    (hm : tr.modified ≠ 0) :
    (¬ d < tr.modified →
      (synchronizeOne env (syncChildren env fuel) a b dir n recursively s).1 =
          { SYNC_RESULT_FALSES with forward := true } ∧
      (synchronizeOne env (syncChildren env fuel) a b dir n recursively s).2.trace =
        s.trace ++ [Op.visited a n, Op.deleteBackend b tr.fullPath false]) ∧
    (¬ d ≤ tr.modified →
      ∃ sub,
        (v2SynchronizeOne env (v2SyncChildren env fuel) a b dir n count s).2.trace =
          s.trace ++ [Op.visited a n, Op.childrenCallN a fr.fullPath none] ++ sub ++
            [Op.deleteBackend b fr.fullPath false]) := by
  have h1 : ¬(fr.size = none ∧ tr.size ≠ none) := by simp [hsa, hsb]
  have h2 : ¬(fr.size ≠ none ∧ tr.size = none) := by simp [hsa]
  have h3 : ¬(fr.deleted ≠ none ∧ tr.deleted ≠ none) := by simp [htd]
  constructor
  · intro hge
    unfold synchronizeOne
    simp only [lookupRecord_emit, hres]
    simp only [if_neg h1, if_neg h2, if_neg h3, if_neg (by simp [hsa] : ¬fr.size ≠ none)]
    unfold syncDirBranch
    simp only [hd, htd]
    rw [if_neg hge, if_pos hm]
    exact ⟨rfl, by rw [trace_deleteEntry_dir env b tr _ hsb]; simp⟩
  · intro hge
    unfold v2SynchronizeOne
    simp only [lookupRecord_emit, hres]
    simp only [if_neg h1, if_neg h2, if_neg (by simp [hsa] : ¬fr.size ≠ none)]
    unfold v2DirBranch
    simp only [hd, htd]
    rw [if_neg hge]
    obtain ⟨sub, hsub⟩ := trExt_v2SyncChildren env fuel a b fr.fullPath none
      (emit (Op.childrenCallN a fr.fullPath none) (emit (Op.visited a n) s))
    have hx0 :
        (v2DeleteEntry b fr.fullPath false
          (v2SyncChildren env fuel a b fr.fullPath none
            (emit (Op.childrenCallN a fr.fullPath none) (emit (Op.visited a n) s))).2).trace =
          s.trace ++ [Op.visited a n, Op.childrenCallN a fr.fullPath none] ++ sub ++
            [Op.deleteBackend b fr.fullPath false] := by
      rw [trace_v2DeleteEntry_dir, hsub]
      simp
    refine ⟨sub, ?_⟩
    simp only [if_pos hm]
    split
    · simp only [trace_v2DelIdx, trace_v2SetIdx]
      exact hx0
    · exact hx0

/-- C5 amended witness: local directory tombstone at 50, remote live
directory modified at 30 — the final variant deletes with no prior child
synchronization; the middle variant (even with a zero recursion budget)
first issues the unbounded `synchronizeChildren` pass and then the
delete. -/
theorem C5_forced_drain_only_in_middle_variant_witness :
    (¬ (50 : Nat) < 30) ∧ (¬ (50 : Nat) ≤ 30) ∧
    ((synchronizeOne defaultEnv (syncChildren defaultEnv 1) Side.loc Side.rem [] "w" true
          (wstate (wrec none 10 (some 50)) (wrec none 30 none))).1 =
        { SYNC_RESULT_FALSES with forward := true } ∧
      (synchronizeOne defaultEnv (syncChildren defaultEnv 1) Side.loc Side.rem [] "w" true
          (wstate (wrec none 10 (some 50)) (wrec none 30 none))).2.trace =
        (wstate (wrec none 10 (some 50)) (wrec none 30 none)).trace ++
          [Op.visited Side.loc "w",
            Op.deleteBackend Side.rem (wrec none 30 none).fullPath false]) ∧
    (∃ sub,
      (v2SynchronizeOne defaultEnv (v2SyncChildren defaultEnv 1) Side.loc Side.rem [] "w"
          (some 0) (wstate (wrec none 10 (some 50)) (wrec none 30 none))).2.trace =
        (wstate (wrec none 10 (some 50)) (wrec none 30 none)).trace ++
          [Op.visited Side.loc "w",
            Op.childrenCallN Side.loc (wrec none 10 (some 50)).fullPath none] ++ sub ++
          [Op.deleteBackend Side.rem (wrec none 10 (some 50)).fullPath false]) :=
  ⟨by decide, by decide,
    (C5_forced_drain_only_in_middle_variant defaultEnv 1 Side.loc Side.rem [] "w" true
        (some 0) (wstate (wrec none 10 (some 50)) (wrec none 30 none))
        (wrec none 10 (some 50)) (wrec none 30 none) 50 (by decide) (by decide) (by decide)
        (by decide) (by decide) (by decide)).1 (by decide),
    (C5_forced_drain_only_in_middle_variant defaultEnv 1 Side.loc Side.rem [] "w" true
        (some 0) (wstate (wrec none 10 (some 50)) (wrec none 30 none))
        (wrec none 10 (some 50)) (wrec none 30 none) 50 (by decide) (by decide) (by decide)
        (by decide) (by decide) (by decide)).2 (by decide)⟩

/-- C3 counterexample: local tombstone of file `w` at `d = 30`, remote
live copy with `modified = 30` (so `d ≤ m` with equality) and content
present.  The claim says the entry is resurrected (content copied onto
the tombstoned side); the final variant instead propagates the deletion —
the live side's content is removed, no transfer is issued, and the
tombstoned side's record is not overwritten with the live one. -/
theorem C3_counterexample :
    alGet
        ((synchronizeOne defaultEnv (syncChildren defaultEnv 1) Side.loc Side.rem [] "w" true
          (wstate (wrec (some 1) 10 (some 30)) (wrec (some 1) 30 none))).2).rem.contents
        ["w"] = none ∧
    (∀ x y : Side,
      Op.transfer x y ["w"] ∉
        ((synchronizeOne defaultEnv (syncChildren defaultEnv 1) Side.loc Side.rem [] "w" true
          (wstate (wrec (some 1) 10 (some 30)) (wrec (some 1) 30 none))).2).trace) ∧
    lookupRecord
        ((synchronizeOne defaultEnv (syncChildren defaultEnv 1) Side.loc Side.rem [] "w" true
          (wstate (wrec (some 1) 10 (some 30)) (wrec (some 1) 30 none))).2)
        Side.loc [] "w" = some (wrec (some 1) 10 (some 30)) := by
  refine ⟨by decide, ?_, by decide⟩
  intro x y
  cases x <;> cases y <;> decide

/-- C3 (amended): in the final variant's `synchronizeOne`, a one-sided
tombstone (`deleted = d` on the from side, live record with
`modified = m` on the to side) is resurrected only when `d < m`
(strictly; at `d = m` the deletion is propagated instead — see the
counterexample).  When `d < m`: for a file whose live content is
readable, the live side's content is copied to the tombstoned side and
that side's index record is overwritten with the live record; for a
directory, the directory is re-created on the tombstoned side
(`doPutObject` plus an index record carrying the live side's `modified`
and no tombstone) and a recursive synchronization of its children is
issued, regardless of the caller's recursion flag. -/
theorem C3_resurrect_on_strictly_newer (env : Env) (fuel : Nat) (a b : Side) (dir : Path)
    (n : String) (recursively : Bool) (s : SyncState) (fr tr : FNRecord) (d : Nat)
    (hres : resolveRecords (lookupRecord s a dir n) (lookupRecord s b dir n) = some (fr, tr))
    (hd : fr.deleted = some d) (htd : tr.deleted = none)
    (hlt : d < tr.modified) :
    (∀ v sa sb, fr.size = some sa → tr.size = some sb →
      alGet (sideRep s b).contents tr.fullPath = some v →
      tr.fullPath ∉ (sideRep s b).faulty →
      (synchronizeOne env (syncChildren env fuel) a b dir n recursively s).1 =
          { SYNC_RESULT_FALSES with backward := true } ∧
      alGet (sideRep (synchronizeOne env (syncChildren env fuel) a b dir n recursively s).2
        a).contents tr.fullPath = some v ∧
      lookupRecord (synchronizeOne env (syncChildren env fuel) a b dir n recursively s).2
          a (parentPath tr.fullPath) (baseName tr.fullPath) = some tr ∧
      (synchronizeOne env (syncChildren env fuel) a b dir n recursively s).2.trace =
        s.trace ++ [Op.visited a n, Op.transfer b a tr.fullPath,
          Op.saveRecord a tr.fullPath tr]) ∧
    (fr.size = none → tr.size = none →
      ∃ rest,
        (synchronizeOne env (syncChildren env fuel) a b dir n recursively s).2.trace =
          s.trace ++ [Op.visited a n, Op.putObject a tr.fullPath,
            Op.saveRecord a tr.fullPath (dirSavedRecord tr.modified),
            Op.childrenCall b fr.fullPath true] ++ rest) := by
  constructor
  · intro v sa sb hsa hsb hv hfaulty
    have h1 : ¬(fr.size = none ∧ tr.size ≠ none) := by simp [hsa]
    have h2 : ¬(fr.size ≠ none ∧ tr.size = none) := by simp [hsb]
    have h3 : ¬(fr.deleted ≠ none ∧ tr.deleted ≠ none) := by simp [htd]
    have h4 : fr.size ≠ none := by simp [hsa]
    unfold synchronizeOne
    simp only [lookupRecord_emit, hres]
    simp only [if_neg h1, if_neg h2, if_neg h3, if_pos h4]
    unfold syncFileBranch
    simp only [hd, htd]
    rw [if_pos hlt]
    unfold copyFile transferContent
    simp only [emit_trace, sideRep_emit, if_neg hfaulty, hv]
    refine ⟨trivial, ?_, ?_, ?_⟩
    · simp
    · exact lookupRecord_saveRecordOp_self _ _ _ _
    · simp
  · intro hsa hsb
    have h1 : ¬(fr.size = none ∧ tr.size ≠ none) := by simp [hsa, hsb]
    have h2 : ¬(fr.size ≠ none ∧ tr.size = none) := by simp [hsa]
    have h3 : ¬(fr.deleted ≠ none ∧ tr.deleted ≠ none) := by simp [htd]
    unfold synchronizeOne
    simp only [lookupRecord_emit, hres]
    simp only [if_neg h1, if_neg h2, if_neg h3, if_neg (by simp [hsa] : ¬fr.size ≠ none)]
    unfold syncDirBranch
    simp only [hd, htd]
    rw [if_pos hlt]
    have hch := trExt_syncChildren env fuel b a fr.fullPath true
      (emit (Op.childrenCall b fr.fullPath true) (makeDirectory a tr (emit (Op.visited a n) s)))
    split
    case _ r2 s2 heq =>
      rw [heq] at hch
      simp only [stateOf] at hch
      obtain ⟨t, ht⟩ := hch
      refine ⟨t, ?_⟩
      simp only []
      rw [ht]
      simp
    case _ e2 s2 heq =>
      rw [heq] at hch
      simp only [stateOf] at hch
      obtain ⟨t, ht⟩ := hch
      refine ⟨t ++ [Op.warnOp fr.fullPath], ?_⟩
      simp only [absorbErr, emit_trace]
      rw [ht]
      simp

/-- C7: evaluation at the failing input.  Both replicas' root indexes
hold a live directory record `w` with the sentinel `modified = 0`.  The
first `synchronizeAll` completes; with no intervening mutation, the
second run still reports a change (`forward = true`) and re-issues the
`makeDirectory` backend call, because the `dir[?from,to]` branch fires
again: the record saved by `makeDirectory` keeps `modified = 0`, so the
state never converges.  The claim (spec §8 idempotence:
`forward = backward = false` on the second run) fails here. -/
theorem C7_second_run_reports_changes :
    (synchronizeAll defaultEnv 3
        (synchronizeAll defaultEnv 3 (wstate (wrec none 0 none) (wrec none 0 none))).2).1.forward
        = true ∧
    Op.putObject Side.rem [] ∈
      (synchronizeAll defaultEnv 3
        (synchronizeAll defaultEnv 3 (wstate (wrec none 0 none) (wrec none 0 none))).2).2.trace := by
  constructor
  · decide
  · decide

/-- C5 counterexample: in the final variant, a local directory tombstone
at 50 against a remote live directory modified at 30 propagates the
deletion with a single recursive backend delete
(`accessor.deleteRecursively`) and no prior `synchronizeChildren` call:
the whole trace of the reconciliation is the visit marker followed
immediately by the physical delete. -/
theorem C5_counterexample :
    (synchronizeOne defaultEnv (syncChildren defaultEnv 1) Side.loc Side.rem [] "w" true
          (wstate (wrec none 10 (some 50)) (wrec none 30 none))).2.trace =
        [Op.visited Side.loc "w", Op.deleteBackend Side.rem ["w"] false] ∧
    ["w"] ∉
      ((synchronizeOne defaultEnv (syncChildren defaultEnv 1) Side.loc Side.rem [] "w" true
          (wstate (wrec none 10 (some 50)) (wrec none 30 none))).2).rem.dirs ∧
    (synchronizeOne defaultEnv (syncChildren defaultEnv 1) Side.loc Side.rem [] "w" true
          (wstate (wrec none 10 (some 50)) (wrec none 30 none))).1 =
      { SYNC_RESULT_FALSES with forward := true } := by
  refine ⟨by decide, by decide, by decide⟩

/-- C1: tombstone precedence through `synchronizeAll`, final variant.
Replica A (local) holds a tombstone for file entry `e` with
`deleted = t1`; replica B (remote) holds a live record with content.

First half: if B's `modified = t0` with `t0 < t1` (and `t0` is not the
`NOT_EXISTS` sentinel), `synchronizeAll` physically deletes `e`'s content
on B and both replicas end with a tombstone record for `e` (A keeps its
tombstone at `t1`; B's record is tombstoned at the deletion time by the
index-maintaining delete).

Second half: if instead B's `modified = t2` with `t1 < t2`,
`synchronizeAll` copies B's live object back onto A and both replicas end
with B's live record (and B keeps its content). -/
theorem C1_tombstone_precedence (fuel : Nat) (sa sb ma t0 t1 t2 : Nat) (v : Nat) :
    (t0 < t1 → t0 ≠ 0 →
      synchronizeAll defaultEnv (fuel + 1)
          (c1state "e" (c1rec "e" sa ma (some t1)) (c1rec "e" sb t0 none) [] v) =
        ({ forward := true, backward := false, errors := [] },
          { loc :=
              { indexes := [([], [("e", c1rec "e" sa ma (some t1))])], contents := [],
                dirs := [], faulty := [] },
            rem :=
              { indexes :=
                  [([], [("e", { c1rec "e" sb t0 none with deleted := some 1000 })])],
                contents := [], dirs := [], faulty := [] },
            trace :=
              [Op.getIndex Side.loc [], Op.getIndex Side.rem [], Op.visited Side.loc "e",
                Op.deleteBackend Side.rem ["e"] true,
                Op.completedOp true false [] false] })) ∧
    (t1 < t2 →
      synchronizeAll defaultEnv (fuel + 1)
          (c1state "e" (c1rec "e" sa ma (some t1)) (c1rec "e" sb t2 none) [] v) =
        ({ forward := false, backward := true, errors := [] },
          { loc :=
              { indexes := [([], [("e", c1rec "e" sb t2 none)])],
                contents := [(["e"], v)], dirs := [], faulty := [] },
            rem :=
              { indexes := [([], [("e", c1rec "e" sb t2 none)])],
                contents := [(["e"], v)], dirs := [], faulty := [] },
            trace :=
              [Op.getIndex Side.loc [], Op.getIndex Side.rem [], Op.visited Side.loc "e",
                Op.transfer Side.rem Side.loc ["e"], Op.saveRecord Side.loc ["e"] (c1rec "e" sb t2 none),
                Op.completedOp false true [] false] })) := by
  constructor
  · intro hlt hnz
    have hnlt : ¬ (t1 < t0) := Nat.lt_asymm hlt
    simp [synchronizeAll, synchronizeDirectory, syncChildren, synchronizeChildrenStep,
      getFileNameIndex, processFrom, processTo, synchronizeOne, syncFileBranch, deleteEntry,
      backendDeleteFile, copyFile, transferContent, saveRecordOp, saveRecordState,
      lookupRecord, idxOf, alGet, c1state, c1rec, sideRep, resolveRecords, emit,
      setSideRep, tombstoneState, alErase, alSet, baseName, parentPath, defaultEnv,
      defaultExcludeName, defaultExcludePath, dotName, getNames, sortRecordsDesc, insRecDesc,
      mergeResult, List.erase, hnlt, hnz, SYNC_RESULT_FALSES]
  · intro hlt
    simp [synchronizeAll, synchronizeDirectory, syncChildren, synchronizeChildrenStep,
      getFileNameIndex, processFrom, processTo, synchronizeOne, syncFileBranch, deleteEntry,
      backendDeleteFile, copyFile, transferContent, saveRecordOp, saveRecordState,
      lookupRecord, idxOf, alGet, c1state, c1rec, sideRep, resolveRecords, emit,
      setSideRep, tombstoneState, alErase, alSet, baseName, parentPath, defaultEnv,
      defaultExcludeName, defaultExcludePath, dotName, getNames, sortRecordsDesc, insRecDesc,
      mergeResult, List.erase, hlt, SYNC_RESULT_FALSES]

/-- C1 witness: `t0 = 30 < t1 = 50` deletes on B; `t2 = 80 > t1 = 50`
resurrects onto A. -/
theorem C1_tombstone_precedence_witness :
    (30 : Nat) < 50 ∧ (30 : Nat) ≠ 0 ∧ (50 : Nat) < 80 ∧
    synchronizeAll defaultEnv 1
        (c1state "e" (c1rec "e" 4 20 (some 50)) (c1rec "e" 4 30 none) [] 7) =
      ({ forward := true, backward := false, errors := [] },
        { loc :=
            { indexes := [([], [("e", c1rec "e" 4 20 (some 50))])], contents := [],
              dirs := [], faulty := [] },
          rem :=
            { indexes :=
                [([], [("e", { c1rec "e" 4 30 none with deleted := some 1000 })])],
              contents := [], dirs := [], faulty := [] },
          trace :=
            [Op.getIndex Side.loc [], Op.getIndex Side.rem [], Op.visited Side.loc "e",
              Op.deleteBackend Side.rem ["e"] true,
              Op.completedOp true false [] false] }) ∧
    synchronizeAll defaultEnv 1
        (c1state "e" (c1rec "e" 4 20 (some 50)) (c1rec "e" 4 80 none) [] 7) =
      ({ forward := false, backward := true, errors := [] },
        { loc :=
            { indexes := [([], [("e", c1rec "e" 4 80 none)])],
              contents := [(["e"], 7)], dirs := [], faulty := [] },
          rem :=
            { indexes := [([], [("e", c1rec "e" 4 80 none)])],
              contents := [(["e"], 7)], dirs := [], faulty := [] },
          trace :=
            [Op.getIndex Side.loc [], Op.getIndex Side.rem [], Op.visited Side.loc "e",
              Op.transfer Side.rem Side.loc ["e"], Op.saveRecord Side.loc ["e"] (c1rec "e" 4 80 none),
              Op.completedOp false true [] false] }) :=
  ⟨by decide, by decide, by decide,
    (C1_tombstone_precedence 0 4 4 20 30 50 80 7).1 (by decide) (by decide),
    (C1_tombstone_precedence 0 4 4 20 30 50 80 7).2 (by decide)⟩

/-- C3 amended witness: local tombstone at 20, remote live file modified
at 30 with content `9` — the entry is resurrected onto the local side. -/
theorem C3_resurrect_on_strictly_newer_witness :
    (20 : Nat) < (wrec (some 2) 30 none).modified ∧
    ((synchronizeOne defaultEnv (syncChildren defaultEnv 1) Side.loc Side.rem [] "w" true
          (wstate (wrec (some 1) 10 (some 20)) (wrec (some 2) 30 none))).1 =
        { SYNC_RESULT_FALSES with backward := true } ∧
      alGet
          (sideRep
            (synchronizeOne defaultEnv (syncChildren defaultEnv 1) Side.loc Side.rem [] "w"
                true (wstate (wrec (some 1) 10 (some 20)) (wrec (some 2) 30 none))).2
            Side.loc).contents (wrec (some 2) 30 none).fullPath = some 9 ∧
      lookupRecord
          (synchronizeOne defaultEnv (syncChildren defaultEnv 1) Side.loc Side.rem [] "w"
              true (wstate (wrec (some 1) 10 (some 20)) (wrec (some 2) 30 none))).2
          Side.loc (parentPath (wrec (some 2) 30 none).fullPath)
          (baseName (wrec (some 2) 30 none).fullPath) = some (wrec (some 2) 30 none) ∧
      (synchronizeOne defaultEnv (syncChildren defaultEnv 1) Side.loc Side.rem [] "w" true
            (wstate (wrec (some 1) 10 (some 20)) (wrec (some 2) 30 none))).2.trace =
        (wstate (wrec (some 1) 10 (some 20)) (wrec (some 2) 30 none)).trace ++
          [Op.visited Side.loc "w",
            Op.transfer Side.rem Side.loc (wrec (some 2) 30 none).fullPath,
            Op.saveRecord Side.loc (wrec (some 2) 30 none).fullPath
              (wrec (some 2) 30 none)]) :=
  ⟨by decide,
    (C3_resurrect_on_strictly_newer defaultEnv 1 Side.loc Side.rem [] "w" true
        (wstate (wrec (some 1) 10 (some 20)) (wrec (some 2) 30 none))
        (wrec (some 1) 10 (some 20)) (wrec (some 2) 30 none) 20 (by decide) (by decide)
        (by decide) (by decide)).1 9 1 2 (by decide) (by decide) (by decide) (by decide)⟩

/-- C4 witness: a local file tombstone with no remote record at all (the
remote record is synthesized with the sentinel `modified = 0`): no
physical delete is issued and no content or directory changes on either
side. -/
theorem C4_sentinel_no_physical_delete_witness :
    resolveRecords
        (lookupRecord (wstateL (wrec (some 1) 10 (some 40))) Side.loc [] "w")
        (lookupRecord (wstateL (wrec (some 1) 10 (some 40))) Side.rem [] "w") =
      some (wrec (some 1) 10 (some 40), wrec (some 1) 0 none) ∧
    ((synchronizeOne defaultEnv (syncChildren defaultEnv 1) Side.loc Side.rem [] "w" true
          (wstateL (wrec (some 1) 10 (some 40)))).1 = SYNC_RESULT_FALSES ∧
      (∀ x q f,
        Op.deleteBackend x q f ∈
          (synchronizeOne defaultEnv (syncChildren defaultEnv 1) Side.loc Side.rem [] "w"
              true (wstateL (wrec (some 1) 10 (some 40)))).2.trace →
        Op.deleteBackend x q f ∈ (wstateL (wrec (some 1) 10 (some 40))).trace) ∧
      (∀ x,
        (sideRep
            (synchronizeOne defaultEnv (syncChildren defaultEnv 1) Side.loc Side.rem [] "w"
                true (wstateL (wrec (some 1) 10 (some 40)))).2 x).contents =
          (sideRep (wstateL (wrec (some 1) 10 (some 40))) x).contents) ∧
      (∀ x,
        (sideRep
            (synchronizeOne defaultEnv (syncChildren defaultEnv 1) Side.loc Side.rem [] "w"
                true (wstateL (wrec (some 1) 10 (some 40)))).2 x).dirs =
          (sideRep (wstateL (wrec (some 1) 10 (some 40))) x).dirs)) :=
  ⟨by decide,
    C4_sentinel_no_physical_delete defaultEnv (syncChildren defaultEnv 1) Side.loc Side.rem
      [] "w" true (wstateL (wrec (some 1) 10 (some 40))) (wrec (some 1) 10 (some 40))
      (wrec (some 1) 0 none) (by decide) (by decide) (Or.inl ⟨by decide, by decide, by decide⟩)⟩

/-- C10: in the final variant `synchronizeDirectory` never rejects: it is a
total function of its input (the embedding returns a plain pair, mirroring
the source's try/catch around the whole body), and on either outcome of the
directory-level reconciliation `handler.completed` is invoked.  If the
reconciliation escapes with an error `e`, the caught error yields the
result `{forward := false, backward := false, errors := [e]}`, `completed`
is invoked with that result and the error, and that result is returned to
the caller; if it succeeds with `r`, `completed` is invoked with `r` and
`r` is returned. -/
theorem C10_never_rejects (env : Env) (fuel : Nat) (dirPath : Path) (recursively : Bool)
    (s : SyncState) :
    (∀ e s', syncChildren env fuel Side.loc Side.rem dirPath recursively s = Res.err e s' →
      synchronizeDirectory env fuel dirPath recursively s =
        ({ forward := false, backward := false, errors := [e] },
          emit (Op.completedOp false false [e] true) s')) ∧
    (∀ r s', syncChildren env fuel Side.loc Side.rem dirPath recursively s = Res.ok r s' →
      synchronizeDirectory env fuel dirPath recursively s =
        (r, emit (Op.completedOp r.forward r.backward r.errors false) s')) := by
  constructor
  · intro e s' h
    simp [synchronizeDirectory, h, SYNC_RESULT_FALSES]
  · intro r s' h
    simp [synchronizeDirectory, h]

/-- C10 witness: a state whose local root index fetch fails; the error is
caught, `completed` is invoked with the all-false result carrying it, and
that result is returned. -/
theorem C10_never_rejects_witness :
    syncChildren defaultEnv 1 Side.loc Side.rem [] true wstateF =
      Res.err Err.generic (emit (Op.getIndex Side.loc []) wstateF) ∧
    synchronizeDirectory defaultEnv 1 [] true wstateF =
      ({ forward := false, backward := false, errors := [Err.generic] },
        emit (Op.completedOp false false [Err.generic] true)
          (emit (Op.getIndex Side.loc []) wstateF)) :=
  ⟨by decide,
    (C10_never_rejects defaultEnv 1 [] true wstateF).1 Err.generic
      (emit (Op.getIndex Side.loc []) wstateF) (by decide)⟩

/-- C9: error containment.  (i) In the final variant, whenever a
directory's two indexes can be fetched and the directory itself is not
excluded, EVERY non-excluded entry name present on either side is visited
by the reconciliation loops — regardless of any faults affecting
individual entries, no bad entry blocks its siblings.  (ii) An exception
raised while reconciling one name (here: a generic backend error during
the content transfer of a newer-on-the-from-side file) is caught at the
per-name level: the entry's reconciliation returns normally with the
error recorded in the result's `errors` and a warning logged.  (iii) In
the middle variant, an error while fetching either of a directory's name
indexes makes `synchronizeChildren` return the no-changes
`SYNC_RESULT_FALSES` with a warning logged, rather than throw. -/
theorem C9_error_containment (env : Env) (fuel : Nat) (a b : Side) (dir : Path)
    (recursively : Bool) (count : Option Nat) (s : SyncState) :
    (env.excludePath dir = false →
      dir ∉ (sideRep s a).faulty → dir ∉ (sideRep s b).faulty →
      ∀ n, env.excludeName n = false →
        (n ∈ getNames (idxOf s a dir) ∨ n ∈ getNames (idxOf s b dir)) →
        ∃ x, Op.visited x n ∈
          (stateOf (syncChildren env (Nat.succ fuel) a b dir recursively s)).trace) ∧
    (∀ n fr tr,
      resolveRecords (lookupRecord s a dir n) (lookupRecord s b dir n) = some (fr, tr) →
      fr.size ≠ none → tr.size ≠ none → fr.deleted = none → tr.deleted = none →
      tr.modified < fr.modified → fr.fullPath ∈ (sideRep s a).faulty →
      synchronizeOne env (syncChildren env fuel) a b dir n recursively s =
        ({ SYNC_RESULT_FALSES with errors := [Err.generic] },
          emit (Op.warnOp fr.fullPath)
            (emit (Op.transfer a b fr.fullPath) (emit (Op.visited a n) s)))) ∧
    (∀ e s1, getFileNameIndex a dir s = Res.err e s1 →
      v2SyncChildren env (Nat.succ fuel) a b dir count s =
        (V2_FALSES, emit (Op.warnOp dir) s1)) ∧
    (∀ fi s1 e s2, getFileNameIndex a dir s = Res.ok fi s1 →
      getFileNameIndex b dir s1 = Res.err e s2 →
      v2SyncChildren env (Nat.succ fuel) a b dir count s =
        (V2_FALSES, emit (Op.warnOp dir) s2)) := by
  refine ⟨?_, ?_, ?_, ?_⟩
  · intro hxp hfa hfb n hexcl hmem
    simp only [syncChildren]
    exact visited_mem_synchronizeChildrenStep env _
      (fun a' b' n' s' => trExt_synchronizeOne env _
        (fun a2 b2 p2 r2 s2 => trExt_syncChildren env fuel a2 b2 p2 r2 s2)
        a' b' dir n' recursively s')
      (fun a' b' n' s' => visited_mem_synchronizeOne env _
        (fun a2 b2 p2 r2 s2 => trExt_syncChildren env fuel a2 b2 p2 r2 s2)
        a' b' dir n' recursively s')
      a b dir s hxp hfa hfb n hexcl hmem
  · intro n fr tr hres hfs hts hfd htd hlt hfault
    unfold synchronizeOne
    dsimp only
    rw [lookupRecord_emit, lookupRecord_emit, hres]
    dsimp only
    rw [if_neg (by simp [hfs]), if_neg (by simp [hts]), if_neg (by simp [hfd]),
      if_pos hfs]
    unfold syncFileBranch
    rw [hfd, htd]
    dsimp only
    rw [if_pos hlt]
    simp [copyFile, transferContent, hfault, absorbErr, SYNC_RESULT_FALSES]
  · intro e s1 h
    simp only [v2SyncChildren, v2SyncChildrenStep]
    rw [h]
  · intro fi s1 e s2 h1 h2
    simp only [v2SyncChildren, v2SyncChildrenStep]
    rw [h1]
    dsimp only
    rw [h2]

/-- C9 witness: entries `f` (fault-injected transfer) and `g` (healthy)
at the root, both newer locally; `g` is still visited, `f`'s error is
absorbed into its entry result with a warning; plus the two middle-variant
fetch-failure cases. -/
theorem C9_error_containment_witness :
    (∃ x, Op.visited x "g" ∈
      (stateOf (syncChildren defaultEnv 1 Side.loc Side.rem [] true wstate9)).trace) ∧
    synchronizeOne defaultEnv (syncChildren defaultEnv 0) Side.loc Side.rem [] "f" true
        wstate9 =
      ({ SYNC_RESULT_FALSES with errors := [Err.generic] },
        emit (Op.warnOp ["f"])
          (emit (Op.transfer Side.loc Side.rem ["f"]) (emit (Op.visited Side.loc "f") wstate9))) ∧
    v2SyncChildren defaultEnv 1 Side.loc Side.rem [] none wstateF =
      (V2_FALSES, emit (Op.warnOp []) (emit (Op.getIndex Side.loc []) wstateF)) ∧
    v2SyncChildren defaultEnv 1 Side.loc Side.rem [] none wstateF2 =
      (V2_FALSES,
        emit (Op.warnOp [])
          (emit (Op.getIndex Side.rem []) (emit (Op.getIndex Side.loc []) wstateF2))) :=
  ⟨(C9_error_containment defaultEnv 0 Side.loc Side.rem [] true none wstate9).1
      (by decide) (by decide) (by decide) "g" (by decide) (Or.inl (by decide)),
    (C9_error_containment defaultEnv 0 Side.loc Side.rem [] true none wstate9).2.1
      "f" (c9rec ["f"] "f" 30) (c9rec ["f"] "f" 10) (by decide) (by decide) (by decide)
      (by decide) (by decide) (by decide) (by decide),
    (C9_error_containment defaultEnv 0 Side.loc Side.rem [] true none wstateF).2.2.1
      Err.generic (emit (Op.getIndex Side.loc []) wstateF) (by decide),
    (C9_error_containment defaultEnv 0 Side.loc Side.rem [] true none wstateF2).2.2.2
      [] (emit (Op.getIndex Side.loc []) wstateF2) Err.generic
      (emit (Op.getIndex Side.rem []) (emit (Op.getIndex Side.loc []) wstateF2))
      (by decide) (by decide)⟩

/-- C6: excluded entries are never synchronized.  (i) At every depth of
the final variant's recursion, no entry whose name matches the
exclude-name pattern is ever visited by the reconciliation loops — every
visit marker for an excluded name in the final trace was already in the
initial trace — regardless of that entry's records on either replica.
(ii) A directory all of whose entry names (on both sides) are excluded is
left completely untouched: the run performs exactly the two index
fetches, no create, delete, content copy, or index-record mutation, and
returns the all-false result. -/
theorem C6_excluded_never_touched (env : Env) (fuel : Nat) (a b : Side) (dir : Path)
    (recursively : Bool) (s : SyncState) :
    (∀ n, env.excludeName n = true →
      ∀ x, Op.visited x n ∈ (stateOf (syncChildren env fuel a b dir recursively s)).trace →
        Op.visited x n ∈ s.trace) ∧
    (env.excludePath dir = false →
      dir ∉ (sideRep s a).faulty → dir ∉ (sideRep s b).faulty →
      (getNames (idxOf s a dir)).all env.excludeName = true →
      (getNames (idxOf s b dir)).all env.excludeName = true →
      syncChildren env (Nat.succ fuel) a b dir recursively s =
        Res.ok SYNC_RESULT_FALSES (emit (Op.getIndex b dir) (emit (Op.getIndex a dir) s))) := by
  constructor
  · intro n hn x
    exact noVisN_syncChildren env n hn fuel a b dir recursively s x
  · intro hxp hfa hfb ha hb
    have h1 : getFileNameIndex a dir s =
        Res.ok (idxOf s a dir) (emit (Op.getIndex a dir) s) := by
      unfold getFileNameIndex
      dsimp only
      rw [if_neg (by simpa using hfa), idxOf_emit]
    have h2 : getFileNameIndex b dir (emit (Op.getIndex a dir) s) =
        Res.ok (idxOf s b dir) (emit (Op.getIndex b dir) (emit (Op.getIndex a dir) s)) := by
      unfold getFileNameIndex
      dsimp only
      rw [if_neg (by simpa using hfb), idxOf_emit, idxOf_emit]
    simp only [syncChildren]
    unfold synchronizeChildrenStep
    rw [if_neg (by simp [hxp]), h1]
    dsimp only
    rw [h2]
    dsimp only
    rw [processFrom_all_excluded env _ a b _ _ _ _ (by simpa using ha)]
    dsimp only
    rw [processTo_all_excluded env _ b a _ _ _ (by simpa using hb)]
    simp [SYNC_RESULT_FALSES]

/-- C6 witness: a root whose only entry `.h` is dot-excluded, with
differing modification stamps on the two sides: the run emits exactly the
two index fetches and nothing else (its only visit marker is the one
already present initially). -/
theorem C6_excluded_never_touched_witness :
    defaultEnv.excludeName ".h" = true ∧
    Op.visited Side.loc ".h" ∈
      (stateOf (syncChildren defaultEnv 1 Side.loc Side.rem [] true wstate6)).trace ∧
    Op.visited Side.loc ".h" ∈ wstate6.trace ∧
    syncChildren defaultEnv 1 Side.loc Side.rem [] true wstate6 =
      Res.ok SYNC_RESULT_FALSES
        (emit (Op.getIndex Side.rem []) (emit (Op.getIndex Side.loc []) wstate6)) :=
  ⟨by decide, by decide,
    (C6_excluded_never_touched defaultEnv 1 Side.loc Side.rem [] true wstate6).1
      ".h" (by decide) Side.loc (by decide),
    (C6_excluded_never_touched defaultEnv 0 Side.loc Side.rem [] true wstate6).2
      (by decide) (by decide) (by decide) (by decide) (by decide)⟩

end KuraXmitter
